import Mathlib

/-!
# Cloudflare provider resource handlers: Hyperdrive config and Pages project

A shallow embedding of
* `internal/sdkv2provider/resource_cloudflare_hyperdrive_config.go`,
* `internal/sdkv2provider/schema_cloudflare_hyperdrive_config.go`,
* `internal/provider/resource_cloudflare_pages_project.go`.

Conventions of the embedding.

* A Go `interface{}` value is a `Value`: one constructor per dynamic type that the
  handlers assert. A type assertion `v.(T)` is a function into `Except Panic`; it
  fails exactly when the dynamic type of `v` is not `T`.
* `*schema.ResourceData` is a record of the resource ID and of what `d.Get`
  reports for each key. Go mutates it through a pointer; here every handler
  returns the new record.
* The remote client `*cloudflare.API` is a record of state-passing functions over
  an arbitrary remote state `σ`. Every handler returns the list of client calls
  it made, in order.
* Go `error` values keep their wrapping chain (`GoError`); messages are kept as
  format string plus arguments and are never rendered.
* `tflog` calls only write log lines and are left out. The assertion
  `meta.(*cloudflare.API)` is taken to succeed: the handlers receive the client.
-/

namespace Cloudflare

/-! ## Go runtime: errors and panics -/

/-- Go error values, with the chain that `errors.As` and `errors.Unwrap` follow. -/
inductive GoError where
  /-- A `*cloudflare.NotFoundError` returned by the client. -/
  | notFound (msg : String)
  /-- Any other error value returned by the client or the SDK. -/
  | other (msg : String)
  /-- The value of `fmt.Errorf(format, args...)` with no `%w` verb. -/
  | errorf (format : String) (args : List String)
  /-- The value of `fmt.Errorf` with a `%w` verb, or of `errors.Wrap(cause, format)`. -/
  | wrapf (format : String) (args : List String) (cause : GoError)
  deriving DecidableEq, Repr

/-- The test `errors.As(err, &notFoundError)` with `notFoundError : *cloudflare.NotFoundError`:
some error in the chain of `err` is a `NotFoundError`. -/
def GoError.asNotFound : GoError → Bool
  | .notFound _ => true
  | .other _ => false
  | .errorf _ _ => false
  | .wrapf _ _ cause => cause.asNotFound

/-- A Go run-time panic. The only panics the handlers can raise themselves are failed
type assertions; `want` is the asserted type. -/
inductive Panic where
  | interfaceConversion (want : String)
  | sdk (msg : String)
  deriving DecidableEq, Repr

/-! ## `cloudflare-go` data types (the fields the handlers touch) -/

/-- The struct `cloudflare.HyperdriveConfigOrigin`. -/
structure HyperdriveConfigOrigin where
  Database : String := ""
  Host : String := ""
  Port : Int := 0
  Scheme : String := ""
  User : String := ""
  deriving DecidableEq, Repr

/-- The struct `cloudflare.HyperdriveConfigCaching`; `Disabled` is a `*bool`. -/
structure HyperdriveConfigCaching where
  Disabled : Option Bool := none
  MaxAge : Int := 0
  StaleWhileRevalidate : Int := 0
  deriving DecidableEq, Repr

/-- The struct `cloudflare.HyperdriveConfig` (a remote resource). -/
structure HyperdriveConfig where
  ID : String := ""
  Name : String := ""
  Origin : HyperdriveConfigOrigin := {}
  Caching : HyperdriveConfigCaching := {}
  deriving DecidableEq, Repr

/-- The struct `cloudflare.CreateHyperdriveConfigParams`; the defaults are Go zero values. -/
structure CreateHyperdriveConfigParams where
  Name : String := ""
  Password : String := ""
  Origin : HyperdriveConfigOrigin := {}
  Caching : HyperdriveConfigCaching := {}
  deriving DecidableEq, Repr

/-- The struct `cloudflare.UpdateHyperdriveConfigParams`; the defaults are Go zero values. -/
structure UpdateHyperdriveConfigParams where
  HyperdriveID : String := ""
  Name : String := ""
  Password : String := ""
  Origin : HyperdriveConfigOrigin := {}
  Caching : HyperdriveConfigCaching := {}
  deriving DecidableEq, Repr

/-! ## Dynamic values and type assertions -/

/-- A Go `interface{}` value as the handlers see it, one constructor per dynamic type. -/
inductive Value where
  /-- Dynamic type `string`. -/
  | str (s : String)
  /-- Dynamic type `int`. -/
  | int (n : Int)
  /-- Dynamic type `bool`. -/
  | bool (b : Bool)
  /-- Dynamic type `[]string`. -/
  | strSlice (xs : List String)
  /-- Dynamic type `[]interface{}`. -/
  | ifaceSlice (xs : List Value)
  /-- Dynamic type `*schema.Set`, with its elements. -/
  | set (xs : List Value)
  /-- Dynamic type `map[string]interface{}`. -/
  | mapIface (m : List (String × Value))
  /-- Dynamic type `map[string]map[string]interface{}`. -/
  | mapMapIface (m : List (String × List (String × Value)))
  /-- Dynamic type `cloudflare.HyperdriveConfigOrigin`. -/
  | origin (o : HyperdriveConfigOrigin)
  /-- Dynamic type `cloudflare.HyperdriveConfigCaching`. -/
  | caching (c : HyperdriveConfigCaching)

/-- The value is the zero value of its own type (the test `GetOk` applies). -/
def Value.isZero : Value → Bool
  | .str s => s == ""
  | .int n => n == 0
  | .bool b => !b
  | .strSlice xs => xs.isEmpty
  | .ifaceSlice xs => xs.isEmpty
  | .set xs => xs.isEmpty
  | .mapIface m => m.isEmpty
  | .mapMapIface m => m.isEmpty
  | .origin _ => false
  | .caching _ => false

/-- The type assertion `v.(string)`. -/
def Value.asString : Value → Except Panic String
  | .str s => .ok s
  | _ => .error (.interfaceConversion "string")

/-- The type assertion `v.(bool)`. -/
def Value.asBool : Value → Except Panic Bool
  | .bool b => .ok b
  | _ => .error (.interfaceConversion "bool")

/-- The type assertion `v.([]string)`. -/
def Value.asStrSlice : Value → Except Panic (List String)
  | .strSlice xs => .ok xs
  | _ => .error (.interfaceConversion "[]string")

/-- The type assertion `v.(map[string]map[string]interface{})`. -/
def Value.asMapMapIface : Value → Except Panic (List (String × List (String × Value)))
  | .mapMapIface m => .ok m
  | _ => .error (.interfaceConversion "map[string]map[string]interface {}")

/-- The type assertion `v.(cloudflare.HyperdriveConfigOrigin)`. -/
def Value.asOrigin : Value → Except Panic HyperdriveConfigOrigin
  | .origin o => .ok o
  | _ => .error (.interfaceConversion "cloudflare.HyperdriveConfigOrigin")

/-- The type assertion `v.(cloudflare.HyperdriveConfigCaching)`. -/
def Value.asCaching : Value → Except Panic HyperdriveConfigCaching
  | .caching c => .ok c
  | _ => .error (.interfaceConversion "cloudflare.HyperdriveConfigCaching")

/-! ## The Hyperdrive schema (`schema_cloudflare_hyperdrive_config.go`) -/

/-- The `schema.ValueType`s the Hyperdrive schema uses. -/
inductive ValueType where
  | TypeBool
  | TypeInt
  | TypeString
  | TypeSet
  deriving DecidableEq, Repr

/-- One entry of a schema map: the type and the `Required` marker. -/
structure Schema where
  type : ValueType
  Required : Bool := false
  deriving DecidableEq, Repr

/-- Modelled from the spec: the constant `consts.AccountIDSchemaKey` is declared in
`internal/consts`, outside the given sources. It is the key of the scope (account)
identifier, which the schema file and the acceptance test spell `account_id`. -/
def AccountIDSchemaKey : String := "account_id"

/-- The top level of the map `resourceCloudflareHyperdriveConfigSchema()` returns. -/
def resourceCloudflareHyperdriveConfigSchema : List (String × Schema) :=
  [("account_id", { type := .TypeString, Required := true }),
   ("name", { type := .TypeString, Required := true }),
   ("password", { type := .TypeString, Required := true }),
   ("origin", { type := .TypeSet, Required := true }),
   ("caching", { type := .TypeSet })]

/-- The value has the representation the SDK uses for a field of this schema type:
`string`, `int`, `bool`, and `*schema.Set` for `TypeSet`. -/
def ValueType.admits : ValueType → Value → Bool
  | .TypeString, .str _ => true
  | .TypeInt, .int _ => true
  | .TypeBool, .bool _ => true
  | .TypeSet, .set _ => true
  | _, _ => false

/-! ## `schema.ResourceData` -/

/-- The resource data `d`: the resource ID and, for each key, the value `d.Get(key)`
reports (the zero value of the field where nothing is set). -/
structure ResourceData where
  id : String
  attrs : String → Value

/-- The method `d.Id()`. -/
def ResourceData.Id (d : ResourceData) : String := d.id

/-- The method `d.SetId(v)`. -/
def ResourceData.SetId (d : ResourceData) (v : String) : ResourceData :=
  { d with id := v }

/-- The method `d.Get(key)`. -/
def ResourceData.Get (d : ResourceData) (key : String) : Value := d.attrs key

/-- The method `d.GetOk(key)`: the value, and whether it is set to a non-zero value. -/
def ResourceData.GetOk (d : ResourceData) (key : String) : Value × Bool :=
  (d.attrs key, !(d.attrs key).isZero)

/-- Overwrite what `d.Get(key)` reports. -/
def ResourceData.put (d : ResourceData) (key : String) (v : Value) : ResourceData :=
  { d with attrs := fun k => if k = key then v else d.attrs k }

/-- The Go idiom `if v, ok := d.GetOk(key); ok { p.F = conv(v) }`, where `conv` is a
type assertion or a function that may panic: `p` with the field assigned when the key
is present, `p` itself otherwise. -/
def ResourceData.assignIfOk {α β : Type} (d : ResourceData) (key : String)
    (conv : Value → Except Panic α) (p : β) (assign : β → α → β) : Except Panic β :=
  match d.GetOk key with
  | (v, true) =>
    match conv v with
    | .ok x => .ok (assign p x)
    | .error e => .error e
  | (_, false) => .ok p

/-- What the SDK field writer does with a value that is not already in the
representation of the field type. -/
inductive WriteOutcome where
  /-- The writer converts the value and stores `v`. -/
  | stored (v : Value)
  /-- The writer returns an error and stores nothing. -/
  | rejected (err : GoError)
  /-- The writer panics. -/
  | crashed (p : Panic)

/-- The SDK field writer for values that need conversion, by key and value. It is code
of the plugin SDK, so the handlers are verified for every such writer. -/
abbrev FieldWriter := String → Value → WriteOutcome

/-- The method `d.Set(key, value)` on the Hyperdrive resource: a string written to a
`TypeString` field is stored as it is; every other write is decided by the SDK field
writer. Returns the new data and the returned `error`. -/
def ResourceData.Set (w : FieldWriter) (d : ResourceData) (key : String) (value : Value) :
    Except Panic (ResourceData × Option GoError) :=
  match resourceCloudflareHyperdriveConfigSchema.lookup key, value with
  | some ⟨.TypeString, _⟩, .str s => .ok (d.put key (.str s), none)
  | _, _ =>
    match w key value with
    | .stored v => .ok (d.put key v, none)
    | .rejected err => .ok (d, some err)
    | .crashed p => .error p

/-- The state conforms to the Hyperdrive schema: every declared key holds a value in the
representation of its type. The SDK only ever hands such states to the handlers. -/
def ResourceData.conforms (d : ResourceData) : Bool :=
  resourceCloudflareHyperdriveConfigSchema.all fun entry => entry.2.type.admits (d.Get entry.1)

/-- A valid desired state: it conforms to the schema and every `Required` field
(`account_id`, `name`, `password`, `origin`) is present. -/
def ResourceData.valid (d : ResourceData) : Bool :=
  d.conforms &&
  resourceCloudflareHyperdriveConfigSchema.all fun entry =>
    !entry.2.Required || (d.GetOk entry.1).2

/-! ## The remote client -/

/-- The client methods the Hyperdrive handlers call, over a remote state `σ`. Each takes
the account identifier first. -/
structure API (σ : Type) where
  CreateHyperdriveConfig :
    σ → String → CreateHyperdriveConfigParams → σ × Except GoError HyperdriveConfig
  GetHyperdriveConfig : σ → String → String → σ × Except GoError HyperdriveConfig
  UpdateHyperdriveConfig :
    σ → String → UpdateHyperdriveConfigParams → σ × Except GoError HyperdriveConfig
  DeleteHyperdriveConfig : σ → String → String → σ × Option GoError

/-- A call made to the client. -/
inductive APICall where
  | create (accountID : String) (params : CreateHyperdriveConfigParams)
  | get (accountID : String) (hyperdriveConfigID : String)
  | update (accountID : String) (params : UpdateHyperdriveConfigParams)
  | delete (accountID : String) (hyperdriveConfigID : String)
  deriving DecidableEq, Repr

/-- What a CRUD handler leaves behind: the resource data, the remote state, the client
calls it made, and the returned `diag.Diagnostics` (empty for `nil`). -/
structure Outcome (σ : Type) where
  d : ResourceData
  remote : σ
  calls : List APICall
  diags : List GoError

/-- What the importer leaves behind: the returned slice of resource data (empty for
`nil`), the returned `error`, the remote state and the client calls made. -/
structure ImportOutcome (σ : Type) where
  result : List ResourceData
  err : Option GoError
  remote : σ
  calls : List APICall

/-! ## `strings.SplitN` -/

/-- Cut a list of characters at the first occurrence of `sep`: the part before it and
the part after it, or `none` when `sep` does not occur. -/
def cutAt (sep : Char) : List Char → Option (List Char × List Char)
  | [] => none
  | c :: cs =>
    if c = sep then some ([], cs)
    else
      match cutAt sep cs with
      | none => none
      | some (before, after) => some (c :: before, after)

/-- The function `strings.SplitN(s, sep, n)` on characters, for a one-character
separator and `n ≥ 0`: `n = 0` gives `nil`; otherwise at most `n` substrings, the last
one being the unsplit remainder. -/
def splitNChars (sep : Char) : Nat → List Char → List (List Char)
  | 0, _ => []
  | 1, cs => [cs]
  | n + 2, cs =>
    match cutAt sep cs with
    | none => [cs]
    | some (before, after) => before :: splitNChars sep (n + 1) after

/-- The function `strings.SplitN(s, sep, n)` for a one-character separator. -/
def SplitN (s : String) (sep : Char) (n : Nat) : List String :=
  (splitNChars sep n s.data).map String.mk

/-! ## The Hyperdrive handlers (`resource_cloudflare_hyperdrive_config.go`) -/

section Handlers

variable {σ : Type}

/-- The handler `resourceCloudflareHyperdriveConfigRead` (lines 70-97). -/
def resourceCloudflareHyperdriveConfigRead (w : FieldWriter) (client : API σ) (remote : σ)
    (d : ResourceData) : Except Panic (Outcome σ) := do
  let hyperdriveConfigID := d.Id
  let accountID ← (d.Get AccountIDSchemaKey).asString
  let calls := [APICall.get accountID hyperdriveConfigID]
  match client.GetHyperdriveConfig remote accountID hyperdriveConfigID with
  | (remote1, .error err) =>
    if err.asNotFound then
      pure { d := d.SetId "", remote := remote1, calls := calls, diags := [] }
    else
      pure { d := d, remote := remote1, calls := calls,
             diags := [.wrapf "error finding Hyperdrive Config %q: %w" [d.Id] err] }
  | (remote1, .ok resp) =>
    let (d1, _) ← d.Set w "name" (.str resp.Name)
    let (d2, err) ← d1.Set w "origin" (.origin resp.Origin)
    match err with
    | some err =>
      pure { d := d2, remote := remote1, calls := calls,
             diags := [.wrapf "failed to set origin: %w" [] err] }
    | none =>
      let (d3, err) ← d2.Set w "caching" (.caching resp.Caching)
      match err with
      | some err =>
        pure { d := d3, remote := remote1, calls := calls,
               diags := [.wrapf "failed to set caching: %w" [] err] }
      | none => pure { d := d3, remote := remote1, calls := calls, diags := [] }

/-- Lines 34-50 of `resourceCloudflareHyperdriveConfigCreate`: the create request, built
field by field from the values `GetOk` reports as present. -/
def newCreateHyperdriveConfigParams (d : ResourceData) :
    Except Panic CreateHyperdriveConfigParams := do
  let p : CreateHyperdriveConfigParams := {}
  let p ← d.assignIfOk "name" Value.asString p (fun p name => { p with Name := name })
  let p ← d.assignIfOk "password" Value.asString p
    (fun p password => { p with Password := password })
  let p ← d.assignIfOk "origin" Value.asOrigin p (fun p origin => { p with Origin := origin })
  let p ← d.assignIfOk "caching" Value.asCaching p
    (fun p caching => { p with Caching := caching })
  pure p

/-- The handler `resourceCloudflareHyperdriveConfigCreate` (lines 30-68). -/
def resourceCloudflareHyperdriveConfigCreate (w : FieldWriter) (client : API σ) (remote : σ)
    (d : ResourceData) : Except Panic (Outcome σ) := do
  let accountID ← (d.Get AccountIDSchemaKey).asString
  let newHyperdriveConfig ← newCreateHyperdriveConfigParams d
  let call := APICall.create accountID newHyperdriveConfig
  match client.CreateHyperdriveConfig remote accountID newHyperdriveConfig with
  | (remote1, .error err) =>
    pure { d := d, remote := remote1, calls := [call],
           diags := [.wrapf "error creating hyperdrive config" [] err] }
  | (remote1, .ok r) =>
    let d1 := d.SetId r.ID
    let out ← resourceCloudflareHyperdriveConfigRead w client remote1 d1
    pure { out with calls := call :: out.calls }

/-- Lines 103-120 of `resourceCloudflareHyperdriveConfigUpdate`: the update request. -/
def newUpdateHyperdriveConfigParams (d : ResourceData) :
    Except Panic UpdateHyperdriveConfigParams := do
  let p : UpdateHyperdriveConfigParams := {}
  let p := { p with HyperdriveID := d.Id }
  let p ← d.assignIfOk "name" Value.asString p (fun p name => { p with Name := name })
  let p ← d.assignIfOk "password" Value.asString p
    (fun p password => { p with Password := password })
  let p ← d.assignIfOk "origin" Value.asOrigin p (fun p origin => { p with Origin := origin })
  let p ← d.assignIfOk "caching" Value.asCaching p
    (fun p caching => { p with Caching := caching })
  pure p

/-- The handler `resourceCloudflareHyperdriveConfigUpdate` (lines 99-135). -/
def resourceCloudflareHyperdriveConfigUpdate (w : FieldWriter) (client : API σ) (remote : σ)
    (d : ResourceData) : Except Panic (Outcome σ) := do
  let accountID ← (d.Get AccountIDSchemaKey).asString
  let newHyperdriveConfig ← newUpdateHyperdriveConfigParams d
  let call := APICall.update accountID newHyperdriveConfig
  match client.UpdateHyperdriveConfig remote accountID newHyperdriveConfig with
  | (remote1, .error err) =>
    pure { d := d, remote := remote1, calls := [call],
           diags := [.wrapf "error updating hyperdrive config" [] err] }
  | (remote1, .ok r) =>
    if r.ID = "" then
      pure { d := d, remote := remote1, calls := [call],
             diags := [.errorf "failed to find id in Update response; resource was empty" []] }
    else do
      let out ← resourceCloudflareHyperdriveConfigRead w client remote1 d
      pure { out with calls := call :: out.calls }

/-- The handler `resourceCloudflareHyperdriveConfigDelete` (lines 137-150). -/
def resourceCloudflareHyperdriveConfigDelete (client : API σ) (remote : σ)
    (d : ResourceData) : Except Panic (Outcome σ) := do
  let accountID ← (d.Get AccountIDSchemaKey).asString
  let call := APICall.delete accountID d.Id
  match client.DeleteHyperdriveConfig remote accountID d.Id with
  | (remote1, some err) =>
    pure { d := d, remote := remote1, calls := [call],
           diags := [.wrapf "error deleting hyperdrive config" [] err] }
  | (remote1, none) =>
    pure { d := d.SetId "", remote := remote1, calls := [call], diags := [] }

/-- The importer `resourceCloudflareHyperdriveConfigImport` (lines 152-166). The
diagnostics of the trailing Read are dropped, as in the source. -/
def resourceCloudflareHyperdriveConfigImport (w : FieldWriter) (client : API σ) (remote : σ)
    (d : ResourceData) : Except Panic (ImportOutcome σ) := do
  let attributes := SplitN d.Id '/' 2
  match attributes with
  | [accountID, hyperdriveConfigID] =>
    let (d1, _) ← d.Set w AccountIDSchemaKey (.str accountID)
    let d2 := d1.SetId hyperdriveConfigID
    let out ← resourceCloudflareHyperdriveConfigRead w client remote d2
    pure { result := [out.d], err := none, remote := out.remote, calls := out.calls }
  | _ =>
    pure { result := [], err := some (.errorf
             "invalid id (\"%s\") specified, should be in format \"accountID/hyperdriveConfigID\""
             [d.Id]),
           remote := remote, calls := [] }

end Handlers

/-! ## The Pages project (`resource_cloudflare_pages_project.go`) -/

/-- The struct `cloudflare.PagesProjectBuildConfig`. -/
structure PagesProjectBuildConfig where
  BuildCommand : String := ""
  DestinationDir : String := ""
  RootDir : String := ""
  WebAnalyticsTag : String := ""
  WebAnalyticsToken : String := ""
  deriving DecidableEq, Repr

/-- The struct `cloudflare.PagesProjectSourceConfig`. -/
structure PagesProjectSourceConfig where
  Owner : String := ""
  RepoName : String := ""
  ProductionBranch : String := ""
  PRCommentsEnabled : Bool := false
  DeploymentsEnabled : Bool := false
  deriving DecidableEq, Repr

/-- The struct `cloudflare.PagesProjectSource`; `Config` is a pointer (`none` for `nil`).
The Go field `Type` is spelled `Type_` here. -/
structure PagesProjectSource where
  Type_ : String := ""
  Config : Option PagesProjectSourceConfig := none
  deriving DecidableEq, Repr

/-- The struct `cloudflare.PagesProjectDeploymentVar`. -/
structure PagesProjectDeploymentVar where
  Value : String := ""
  deriving DecidableEq, Repr

/-- A Go `map[string]β` as a list of entries; a `nil` map is the empty list. -/
abbrev GoMap (β : Type) := List (String × β)

/-- The assignment `m[key] = v` on a Go map: replace the entry when the key is there,
add one otherwise. -/
def GoMap.store {β : Type} : GoMap β → String → β → GoMap β
  | [], key, v => [(key, v)]
  | (k, x) :: rest, key, v =>
    if k = key then (k, v) :: rest else (k, x) :: GoMap.store rest key v

/-- The read `m[key]` on a Go map, `none` when the key is absent. -/
def GoMap.find {β : Type} : GoMap β → String → Option β
  | [], _ => none
  | (k, x) :: rest, key => if k = key then some x else GoMap.find rest key

/-- One deployment environment of `cloudflare.PagesProjectDeploymentConfigs`. -/
structure PagesProjectDeploymentConfigEnvironment where
  EnvVars : GoMap PagesProjectDeploymentVar := []
  CompatibilityDate : String := ""
  CompatibilityFlags : List String := []
  deriving DecidableEq, Repr

/-- The struct `cloudflare.PagesProjectDeploymentConfigs`. -/
structure PagesProjectDeploymentConfigs where
  Preview : PagesProjectDeploymentConfigEnvironment := {}
  Production : PagesProjectDeploymentConfigEnvironment := {}
  deriving DecidableEq, Repr

/-- The struct `cloudflare.PagesProject` (the fields `buildPagesProject` fills). -/
structure PagesProject where
  Name : String := ""
  BuildConfig : PagesProjectBuildConfig := {}
  DeploymentConfigs : PagesProjectDeploymentConfigs := {}
  Source : PagesProjectSource := {}
  deriving DecidableEq, Repr

/-- The inner loop of `parseEnvironmentVariables` (lines 31-36) over the entries of one
variable: only the sub-key `value` is read, and its value is asserted to be a string. -/
def parseDeploymentVar :
    List (String × Value) → PagesProjectDeploymentVar → Except Panic PagesProjectDeploymentVar
  | [], deploymentVar => .ok deploymentVar
  | (subvalueName, subvalueValue) :: rest, deploymentVar =>
    if subvalueName = "value" then
      match subvalueValue.asString with
      | .ok v => parseDeploymentVar rest { deploymentVar with Value := v }
      | .error p => .error p
    else parseDeploymentVar rest deploymentVar

/-- The outer loop of `parseEnvironmentVariables` (lines 29-38). -/
def parseEnvironmentVariablesLoop :
    List (String × List (String × Value)) → GoMap PagesProjectDeploymentVar →
      Except Panic (GoMap PagesProjectDeploymentVar)
  | [], production => .ok production
  | (variableName, variableValue) :: rest, production =>
    match parseDeploymentVar variableValue {} with
    | .ok deploymentVar =>
      parseEnvironmentVariablesLoop rest (production.store variableName deploymentVar)
    | .error p => .error p

/-- The function `parseEnvironmentVariables` (lines 26-40). -/
def parseEnvironmentVariables (environment : Value) :
    Except Panic (GoMap PagesProjectDeploymentVar) := do
  let envVariables ← environment.asMapMapIface
  parseEnvironmentVariablesLoop envVariables []

/-- Lines 45-62 of `buildPagesProject`: the build configuration. -/
def buildPagesProjectBuildConfig (d : ResourceData) : Except Panic PagesProjectBuildConfig := do
  let buildConfig : PagesProjectBuildConfig := {}
  if (d.GetOk "build_config").2 then
    let buildConfig ← d.assignIfOk "build_config.0.build_command" Value.asString buildConfig
      (fun c buildCommand => { c with BuildCommand := buildCommand })
    let buildConfig ← d.assignIfOk "build_config.0.destination_dir" Value.asString buildConfig
      (fun c destinationDir => { c with DestinationDir := destinationDir })
    let buildConfig ← d.assignIfOk "build_config.0.root_dir" Value.asString buildConfig
      (fun c rootDir => { c with RootDir := rootDir })
    let buildConfig ← d.assignIfOk "build_config.0.web_analytics_tag" Value.asString buildConfig
      (fun c webAnalyticsTag => { c with WebAnalyticsTag := webAnalyticsTag })
    let buildConfig ← d.assignIfOk "build_config.0.web_analytics_tag" Value.asString buildConfig
      (fun c webAnalyticsToken => { c with WebAnalyticsToken := webAnalyticsToken })
    pure buildConfig
  else pure buildConfig

/-- Lines 70-86 of `buildPagesProject`: the source configuration. -/
def buildPagesProjectSourceConfig (d : ResourceData) : Except Panic PagesProjectSourceConfig := do
  let sourceConfig : PagesProjectSourceConfig := {}
  let sourceConfig ← d.assignIfOk "source.0.config.0.owner" Value.asString sourceConfig
    (fun c sourceOwner => { c with Owner := sourceOwner })
  let sourceConfig ← d.assignIfOk "source.0.config.0.repo_name" Value.asString sourceConfig
    (fun c sourceRepoName => { c with RepoName := sourceRepoName })
  let sourceConfig ← d.assignIfOk "source.0.config.0.production_branch" Value.asString
    sourceConfig (fun c sourceProducationBranch => { c with ProductionBranch := sourceProducationBranch })
  let sourceConfig ← d.assignIfOk "source.0.config.0.pr_comments_enabled" Value.asBool
    sourceConfig (fun c sourcePRComments => { c with PRCommentsEnabled := sourcePRComments })
  let sourceConfig ← d.assignIfOk "source.0.config.0.deployments_enabled" Value.asBool
    sourceConfig
    (fun c sourceDeploymentsEnabled => { c with DeploymentsEnabled := sourceDeploymentsEnabled })
  pure sourceConfig

/-- Lines 64-88 of `buildPagesProject`: the source. -/
def buildPagesProjectSource (d : ResourceData) : Except Panic PagesProjectSource := do
  let source : PagesProjectSource := {}
  if (d.GetOk "source").2 then
    let source ← d.assignIfOk "source.0.type" Value.asString source
      (fun s sourceType => { s with Type_ := sourceType })
    if (d.GetOk "source.0.config").2 then
      let sourceConfig ← buildPagesProjectSourceConfig d
      pure { source with Config := some sourceConfig }
    else pure source
  else pure source

/-- Lines 90-112 of `buildPagesProject`: the deployment configurations. The two
compatibility dates are read again with `d.Get` once `GetOk` reports them present,
which is the value `GetOk` returned. -/
def buildPagesProjectDeploymentConfigs (d : ResourceData) :
    Except Panic PagesProjectDeploymentConfigs := do
  let deploymentConfig : PagesProjectDeploymentConfigs := {}
  let deploymentConfig ←
    d.assignIfOk "deployment_configs.0.preview.0.environment_variables"
      parseEnvironmentVariables deploymentConfig
      (fun c previewVars => { c with Preview := { c.Preview with EnvVars := previewVars } })
  let deploymentConfig ←
    d.assignIfOk "deployment_configs.0.preview.0.compatibility_date"
      (fun _ => (d.Get "deployment_configs.0.preview.0.compatibility_date").asString)
      deploymentConfig
      (fun c date => { c with Preview := { c.Preview with CompatibilityDate := date } })
  let deploymentConfig ←
    d.assignIfOk "deployment_configs.0.preview.0.compatibility_flags" Value.asStrSlice
      deploymentConfig
      (fun c previewCompatibilityFlags =>
        { c with Preview := { c.Preview with CompatibilityFlags := previewCompatibilityFlags } })
  let deploymentConfig ←
    d.assignIfOk "deployment_configs.0.production.0.environment_variables"
      parseEnvironmentVariables deploymentConfig
      (fun c productionVars =>
        { c with Production := { c.Production with EnvVars := productionVars } })
  let deploymentConfig ←
    d.assignIfOk "deployment_configs.0.production.0.compatibility_date"
      (fun _ => (d.Get "deployment_configs.0.production.0.compatibility_date").asString)
      deploymentConfig
      (fun c date => { c with Production := { c.Production with CompatibilityDate := date } })
  let deploymentConfig ←
    d.assignIfOk "deployment_configs.0.preview.0.compatibility_flags" Value.asStrSlice
      deploymentConfig
      (fun c productionCompatibilityFlags =>
        { c with
          Production := { c.Production with CompatibilityFlags := productionCompatibilityFlags } })
  pure deploymentConfig

/-- The function `buildPagesProject` (lines 42-120). -/
def buildPagesProject (d : ResourceData) : Except Panic PagesProject := do
  let name ← (d.Get "name").asString
  let buildConfig ← buildPagesProjectBuildConfig d
  let source ← buildPagesProjectSource d
  let deploymentConfig ← buildPagesProjectDeploymentConfigs d
  pure { Name := name, BuildConfig := buildConfig, DeploymentConfigs := deploymentConfig,
         Source := source }

/-- The key the production compatibility flags are configured under. -/
def productionCompatibilityFlagsKey : String :=
  "deployment_configs.0.production.0.compatibility_flags"

/-- The key the preview compatibility flags are configured under. -/
def previewCompatibilityFlagsKey : String :=
  "deployment_configs.0.preview.0.compatibility_flags"

/-- The key the web analytics tag of the build configuration is configured under. -/
def webAnalyticsTagKey : String := "build_config.0.web_analytics_tag"

/-- The key a web analytics token of the build configuration would be configured
under. -/
def webAnalyticsTokenKey : String := "build_config.0.web_analytics_token"

/-! ## Concrete states, clients and writers used in the examples -/

/-- A state with no field set: `d.Get` reports the zero value of each field type. -/
def unsetAttrs : String → Value := fun key =>
  match resourceCloudflareHyperdriveConfigSchema.lookup key with
  | some ⟨.TypeSet, _⟩ => .set []
  | _ => .str ""

/-- A field writer that returns an error for every value needing conversion. -/
def rejectingWriter : FieldWriter := fun _ _ => .rejected (.other "could not convert value")

/-- A remote on which every call fails with the error `err`. -/
def failingAPI (err : GoError) : API Unit where
  CreateHyperdriveConfig := fun s _ _ => (s, .error err)
  GetHyperdriveConfig := fun s _ _ => (s, .error err)
  UpdateHyperdriveConfig := fun s _ _ => (s, .error err)
  DeleteHyperdriveConfig := fun s _ _ => (s, some err)

/-- A remote that holds no resource: reads, updates and deletes report `NotFoundError`. -/
def absentAPI : API Unit := failingAPI (.notFound "hyperdrive config not found")

/-- A remote on which every call succeeds; creates, lookups and updates answer with the
resource `r`. -/
def servingAPI (r : HyperdriveConfig) : API Unit where
  CreateHyperdriveConfig := fun s _ _ => (s, .ok r)
  GetHyperdriveConfig := fun s _ _ => (s, .ok r)
  UpdateHyperdriveConfig := fun s _ _ => (s, .ok r)
  DeleteHyperdriveConfig := fun s _ _ => (s, none)

/-- A remote that deletes any resource with a non-empty ID and refuses the empty ID;
its other calls report `NotFoundError`. -/
def strictDeleteAPI : API Unit where
  CreateHyperdriveConfig := fun s _ _ => (s, .error (.notFound "not found"))
  GetHyperdriveConfig := fun s _ _ => (s, .error (.notFound "not found"))
  UpdateHyperdriveConfig := fun s _ _ => (s, .error (.notFound "not found"))
  DeleteHyperdriveConfig := fun s _ id =>
    (s, if id = "" then some (.other "required hyperdrive config id missing") else none)

/-- The state of the acceptance test `TestAccCloudflareHyperdriveConfig_Basic`, first
step, in the representation the schema prescribes (`origin` and `caching` are sets). -/
def basicTestAttrs : String → Value
  | "account_id" => .str "acct123"
  | "name" => .str "rnd"
  | "password" => .str "password"
  | "origin" => .set [.mapIface [("database", .str "database"), ("host", .str "host"),
      ("port", .str "1234"), ("scheme", .str "scheme"), ("user", .str "user")]]
  | "caching" => .set [.mapIface [("disabled", .bool false), ("max_age", .int 1),
      ("stale_while_revalidate", .int 1)]]
  | _ => .str ""

/-- The state of the second step of `TestAccCloudflareHyperdriveConfig_Basic` (the
update of name and password), in the representation the schema prescribes, with the
Identity the first step stored. -/
def updateTestAttrs : String → Value
  | "account_id" => .str "acct123"
  | "name" => .str "rnd-updated"
  | "password" => .str "updated-password"
  | "origin" => .set [.mapIface [("database", .str "database"), ("host", .str "host"),
      ("port", .str "1234"), ("scheme", .str "scheme"), ("user", .str "user")]]
  | "caching" => .set [.mapIface [("disabled", .bool false), ("max_age", .int 1),
      ("stale_while_revalidate", .int 1)]]
  | _ => .str ""

/-- A field writer that panics on every value needing conversion, as a writer does that
asserts a `*schema.Set` on the struct it is handed. -/
def panickingWriter : FieldWriter := fun _ _ => .crashed (.interfaceConversion "*schema.Set")

/-- A state in which only the scalar fields are set; `origin` and `caching` hold the
empty set. -/
def scalarOnlyAttrs : String → Value
  | "account_id" => .str "acct123"
  | "name" => .str "rnd-updated"
  | "password" => .str "updated-password"
  | "origin" => .set []
  | "caching" => .set []
  | _ => .str ""

/-- A state whose `origin` and `caching` hold values of the `cloudflare-go` struct types,
the only values the type assertions of the request builders accept. -/
def structAttrs : String → Value
  | "account_id" => .str "acct123"
  | "name" => .str "db1"
  | "password" => .str "password"
  | "origin" => .origin { Database := "d", Host := "h", Port := 5432, Scheme := "postgres",
                          User := "u" }
  | "caching" => .caching { Disabled := some false, MaxAge := 1, StaleWhileRevalidate := 1 }
  | _ => .str ""

/-- A Pages project state with preview flags `["p"]`, production flags `["q"]`, one
preview environment variable, and a build configuration with an analytics tag. -/
def pagesAttrs : String → Value
  | "name" => .str "site"
  | "build_config" => .ifaceSlice [.mapIface [("web_analytics_tag", .str "tag")]]
  | "build_config.0.web_analytics_tag" => .str "tag"
  | "build_config.0.web_analytics_token" => .str "token"
  | "deployment_configs.0.preview.0.environment_variables" =>
    .mapMapIface [("KEY", [("value", .str "v"), ("type", .str "plain_text")])]
  | "deployment_configs.0.preview.0.compatibility_flags" => .strSlice ["p"]
  | "deployment_configs.0.production.0.compatibility_flags" => .strSlice ["q"]
  | _ => .str ""

/-- Following the spec's words: a composite ID `<scope>/<resourceID>` with exactly one
separator and two non-empty components. -/
def wellFormedCompositeID (id : String) : Bool :=
  id.data.count '/' == 1 && id.data.head? != some '/' && id.data.getLast? != some '/'

/-! ## Lemmas on the embedding -/

section Lemmas

variable {σ : Type}

theorem cutAt_eq_none {sep : Char} {cs : List Char} (h : sep ∉ cs) : cutAt sep cs = none := by
  induction cs with
  | nil => rfl
  | cons c cs ih =>
    simp only [List.mem_cons, not_or] at h
    have hc : c ≠ sep := fun e => h.1 e.symm
    simp [cutAt, hc, ih h.2]

theorem cutAt_append {sep : Char} {before : List Char} (after : List Char)
    (h : sep ∉ before) : cutAt sep (before ++ sep :: after) = some (before, after) := by
  induction before with
  | nil => simp [cutAt]
  | cons c cs ih =>
    simp only [List.mem_cons, not_or] at h
    have hc : c ≠ sep := fun e => h.1 e.symm
    simp [cutAt, hc, ih h.2]

theorem cutAt_of_mem {sep : Char} {cs : List Char} (h : sep ∈ cs) :
    ∃ before after, cs = before ++ sep :: after ∧ sep ∉ before := by
  induction cs with
  | nil => simp at h
  | cons c cs ih =>
    by_cases hc : c = sep
    · exact ⟨[], cs, by simp [hc], by simp⟩
    · have h2 : sep ∈ cs := by
        rcases List.mem_cons.mp h with e | e
        · exact absurd e.symm hc
        · exact e
      obtain ⟨b, a, e, hb⟩ := ih h2
      refine ⟨c :: b, a, by simp [e], ?_⟩
      simp only [List.mem_cons, not_or]
      exact ⟨fun e => hc e.symm, hb⟩

theorem SplitN_no_sep {s : String} (h : '/' ∉ s.data) : SplitN s '/' 2 = [s] := by
  simp [SplitN, splitNChars, cutAt_eq_none h]

theorem SplitN_sep {s : String} {before after : List Char}
    (e : s.data = before ++ '/' :: after) (h : '/' ∉ before) :
    SplitN s '/' 2 = [String.mk before, String.mk after] := by
  simp [SplitN, splitNChars, e, cutAt_append after h]


theorem Set_accountID (w : FieldWriter) (d : ResourceData) (a : String) :
    d.Set w AccountIDSchemaKey (.str a) = .ok (d.put AccountIDSchemaKey (.str a), none) := rfl

theorem Set_name (w : FieldWriter) (d : ResourceData) (a : String) :
    d.Set w "name" (.str a) = .ok (d.put "name" (.str a), none) := rfl

theorem Set_origin (w : FieldWriter) (d : ResourceData) (o : HyperdriveConfigOrigin) :
    d.Set w "origin" (.origin o) =
      match w "origin" (.origin o) with
      | .stored v => .ok (d.put "origin" v, none)
      | .rejected err => .ok (d, some err)
      | .crashed p => .error p := rfl

theorem Set_caching (w : FieldWriter) (d : ResourceData) (c : HyperdriveConfigCaching) :
    d.Set w "caching" (.caching c) =
      match w "caching" (.caching c) with
      | .stored v => .ok (d.put "caching" v, none)
      | .rejected err => .ok (d, some err)
      | .crashed p => .error p := rfl

/-- Read on a failed lookup -/
theorem Read_of_error (w : FieldWriter) (client : API σ) (remote remote1 : σ) (d : ResourceData)
    (acct : String) (err : GoError) (ha : d.Get AccountIDSchemaKey = .str acct)
    (hc : client.GetHyperdriveConfig remote acct d.Id = (remote1, .error err)) :
    resourceCloudflareHyperdriveConfigRead w client remote d =
      .ok (if err.asNotFound then
            { d := d.SetId "", remote := remote1, calls := [.get acct d.Id], diags := [] }
          else
            { d := d, remote := remote1, calls := [.get acct d.Id],
              diags := [.wrapf "error finding Hyperdrive Config %q: %w" [d.Id] err] }) := by
  unfold resourceCloudflareHyperdriveConfigRead
  simp only [ha, Value.asString, bind, Except.bind, hc, pure, Except.pure]
  split <;> rfl

theorem put_Id (d : ResourceData) (k : String) (v : Value) : (d.put k v).Id = d.Id := rfl

theorem put_Get_of_ne (d : ResourceData) {k k2 : String} (v : Value) (h : k2 ≠ k) :
    (d.put k v).Get k2 = d.Get k2 := by
  simp [ResourceData.put, ResourceData.Get, h]

theorem SetId_Get (d : ResourceData) (v k : String) : (d.SetId v).Get k = d.Get k := rfl

theorem put_Get_self (d : ResourceData) (k : String) (v : Value) : (d.put k v).Get k = v := by
  simp [ResourceData.put, ResourceData.Get]

theorem Read_frame (w : FieldWriter) (client : API σ) (remote : σ) (d : ResourceData)
    (out : Outcome σ) (h : resourceCloudflareHyperdriveConfigRead w client remote d = .ok out) :
    out.d.Get AccountIDSchemaKey = d.Get AccountIDSchemaKey ∧
    ∃ acct, d.Get AccountIDSchemaKey = .str acct ∧
      out.remote = (client.GetHyperdriveConfig remote acct d.Id).1 ∧
      out.calls = [.get acct d.Id] ∧
      out.d.Id =
        match (client.GetHyperdriveConfig remote acct d.Id).2 with
        | .error err => if err.asNotFound then "" else d.Id
        | .ok _ => d.Id := by
  unfold resourceCloudflareHyperdriveConfigRead at h
  cases ha : d.Get AccountIDSchemaKey <;>
    simp only [ha, Value.asString, bind, Except.bind, reduceCtorEq] at h
  rename_i acct
  have hn1 : AccountIDSchemaKey ≠ "name" := by decide
  have hn2 : AccountIDSchemaKey ≠ "origin" := by decide
  have hn3 : AccountIDSchemaKey ≠ "caching" := by decide
  rcases hc : client.GetHyperdriveConfig remote acct d.Id with ⟨remote1, err | resp⟩
  · simp only [hc, pure, Except.pure] at h
    cases hnf : err.asNotFound <;>
      simp only [hnf, if_true, if_false, Bool.false_eq_true, Except.ok.injEq] at h
    · subst h
      exact ⟨ha, acct, rfl, by simp [hc], rfl, by simp [hc, hnf]⟩
    · subst h
      exact ⟨ha, acct, rfl, by simp [hc], rfl,
        by rw [hc]; simp [hnf, ResourceData.SetId, ResourceData.Id]⟩
  · simp only [hc, pure, Except.pure, Set_name, Set_origin, Set_caching] at h
    cases h1 : w "origin" (.origin resp.Origin) <;> simp only [h1, reduceCtorEq] at h
    · cases h2 : w "caching" (.caching resp.Caching) <;>
        simp only [h2, reduceCtorEq, Except.ok.injEq] at h
      · subst h
        refine ⟨?_, acct, rfl, by simp [hc], rfl, by simp [hc]; rfl⟩
        simp only [put_Get_of_ne _ _ hn1, put_Get_of_ne _ _ hn2, put_Get_of_ne _ _ hn3, ha]
      · subst h
        refine ⟨?_, acct, rfl, by simp [hc], rfl, by simp [hc]; rfl⟩
        simp only [put_Get_of_ne _ _ hn1, put_Get_of_ne _ _ hn2, ha]
    · simp only [Except.ok.injEq] at h
      subst h
      refine ⟨?_, acct, rfl, by simp [hc], rfl, by simp [hc]; rfl⟩
      simp only [put_Get_of_ne _ _ hn1, ha]

/-- Read returns whenever the account identifier is a string and the field writer does
not panic. -/
theorem Read_returns (w : FieldWriter) (client : API σ) (remote : σ) (d : ResourceData)
    (acct : String) (ha : d.Get AccountIDSchemaKey = .str acct)
    (hw : ∀ k v p, w k v ≠ .crashed p) :
    ∃ out, resourceCloudflareHyperdriveConfigRead w client remote d = .ok out := by
  unfold resourceCloudflareHyperdriveConfigRead
  simp only [ha, Value.asString, bind, Except.bind]
  rcases hc : client.GetHyperdriveConfig remote acct d.Id with ⟨remote1, err | resp⟩
  · simp only [pure, Except.pure]
    split <;> exact ⟨_, rfl⟩
  · simp only [pure, Except.pure, Set_name, Set_origin, Set_caching]
    cases h1 : w "origin" (.origin resp.Origin)
    · cases h2 : w "caching" (.caching resp.Caching)
      · exact ⟨_, rfl⟩
      · exact ⟨_, rfl⟩
      · exact absurd h2 (hw _ _ _)
    · exact ⟨_, rfl⟩
    · exact absurd h1 (hw _ _ _)


/-- Read on a successful lookup: the outcome is decided by what the field writer does
with `origin` and then with `caching`. -/
theorem Read_of_ok (w : FieldWriter) (client : API σ) (remote remote1 : σ) (d : ResourceData)
    (acct : String) (resp : HyperdriveConfig) (ha : d.Get AccountIDSchemaKey = .str acct)
    (hc : client.GetHyperdriveConfig remote acct d.Id = (remote1, .ok resp)) :
    resourceCloudflareHyperdriveConfigRead w client remote d =
      match w "origin" (.origin resp.Origin) with
      | .crashed p => .error p
      | .rejected err =>
        .ok { d := d.put "name" (.str resp.Name), remote := remote1,
              calls := [.get acct d.Id],
              diags := [.wrapf "failed to set origin: %w" [] err] }
      | .stored v =>
        match w "caching" (.caching resp.Caching) with
        | .crashed p => .error p
        | .rejected err =>
          .ok { d := (d.put "name" (.str resp.Name)).put "origin" v, remote := remote1,
                calls := [.get acct d.Id],
                diags := [.wrapf "failed to set caching: %w" [] err] }
        | .stored v2 =>
          .ok { d := ((d.put "name" (.str resp.Name)).put "origin" v).put "caching" v2,
                remote := remote1, calls := [.get acct d.Id], diags := [] } := by
  unfold resourceCloudflareHyperdriveConfigRead
  simp only [ha, Value.asString, bind, Except.bind, hc, pure, Except.pure, Set_name,
    Set_origin, Set_caching]
  cases h1 : w "origin" (.origin resp.Origin) with
  | crashed p => rfl
  | rejected err => rfl
  | stored v =>
    cases h2 : w "caching" (.caching resp.Caching) <;> rfl

theorem Import_no_sep (w : FieldWriter) (client : API σ) (remote : σ) (d : ResourceData)
    (h : '/' ∉ d.Id.data) :
    resourceCloudflareHyperdriveConfigImport w client remote d =
      .ok { result := [], err := some (.errorf
              "invalid id (\"%s\") specified, should be in format \"accountID/hyperdriveConfigID\""
              [d.Id]),
            remote := remote, calls := [] } := by
  unfold resourceCloudflareHyperdriveConfigImport
  simp only [SplitN_no_sep h]
  rfl

theorem Import_sep (w : FieldWriter) (client : API σ) (remote : σ) (d : ResourceData)
    (before after : List Char) (e : d.Id.data = before ++ '/' :: after) (h : '/' ∉ before) :
    resourceCloudflareHyperdriveConfigImport w client remote d =
      Except.map (fun out => { result := [out.d], err := none, remote := out.remote,
                               calls := out.calls })
        (resourceCloudflareHyperdriveConfigRead w client remote
          ((d.put AccountIDSchemaKey (.str (String.mk before))).SetId (String.mk after))) := by
  unfold resourceCloudflareHyperdriveConfigImport
  simp only [SplitN_sep e h, Set_accountID, bind, Except.bind]
  rfl

end Lemmas

/-! ## Import: parsing of the composite ID -/

section Import

variable {σ : Type}

/-- C1, as stated, fails: the IDs `acct/`, `/res` and `a/b/c` are not of the form
`<scope>/<resourceID>` with one separator and two non-empty components, yet the
importer returns no error for any of them. -/
theorem import_accepts_ids_outside_the_format :
    wellFormedCompositeID "acct/" = false ∧
    wellFormedCompositeID "/res" = false ∧
    wellFormedCompositeID "a/b/c" = false ∧
    (∃ out, resourceCloudflareHyperdriveConfigImport rejectingWriter absentAPI ()
        ⟨"acct/", unsetAttrs⟩ = .ok out ∧ out.err = none) ∧
    (∃ out, resourceCloudflareHyperdriveConfigImport rejectingWriter absentAPI ()
        ⟨"/res", unsetAttrs⟩ = .ok out ∧ out.err = none) ∧
    (∃ out, resourceCloudflareHyperdriveConfigImport rejectingWriter absentAPI ()
        ⟨"a/b/c", unsetAttrs⟩ = .ok out ∧ out.err = none) :=
  ⟨by decide, by decide, by decide, ⟨_, rfl, rfl⟩, ⟨_, rfl, rfl⟩, ⟨_, rfl, rfl⟩⟩

/-- C1, amended: the importer returns an error exactly when the ID contains no `/`.
Whenever it returns, the error is set if and only if the ID has no `/`; on an ID
without `/` it always returns (the error, no resource data, no client call); and on
every ID it returns provided the SDK field writer does not panic during the Read. -/
theorem import_error_iff_no_separator (w : FieldWriter) (client : API σ) (remote : σ)
    (d : ResourceData) :
    (∀ out, resourceCloudflareHyperdriveConfigImport w client remote d = .ok out →
      (out.err.isSome = true ↔ '/' ∉ d.Id.data)) ∧
    ('/' ∉ d.Id.data →
      resourceCloudflareHyperdriveConfigImport w client remote d =
        .ok { result := [], err := some (.errorf
                "invalid id (\"%s\") specified, should be in format \"accountID/hyperdriveConfigID\""
                [d.Id]),
              remote := remote, calls := [] }) ∧
    ((∀ k v p, w k v ≠ .crashed p) →
      ∃ out, resourceCloudflareHyperdriveConfigImport w client remote d = .ok out) := by
  refine ⟨?_, Import_no_sep w client remote d, ?_⟩
  · intro out h
    by_cases hs : '/' ∈ d.Id.data
    · obtain ⟨before, after, e, hb⟩ := cutAt_of_mem hs
      rw [Import_sep w client remote d before after e hb] at h
      cases hr : resourceCloudflareHyperdriveConfigRead w client remote
          ((d.put AccountIDSchemaKey (.str (String.mk before))).SetId (String.mk after)) with
      | error p => simp [hr, Except.map] at h
      | ok o =>
        simp only [hr, Except.map, Except.ok.injEq] at h
        subst h
        simp [hs]
    · rw [Import_no_sep w client remote d hs, Except.ok.injEq] at h
      subst h
      simp [hs]
  · intro hw
    by_cases hs : '/' ∈ d.Id.data
    · obtain ⟨before, after, e, hb⟩ := cutAt_of_mem hs
      rw [Import_sep w client remote d before after e hb]
      obtain ⟨o, ho⟩ := Read_returns w client remote
        ((d.put AccountIDSchemaKey (.str (String.mk before))).SetId (String.mk after))
        (String.mk before)
        (by simp [ResourceData.SetId, ResourceData.Get, ResourceData.put]) hw
      exact ⟨_, by rw [ho]; rfl⟩
    · exact ⟨_, Import_no_sep w client remote d hs⟩

/-- The amended C1 at concrete inputs: `acct/` is imported without error, `malformed`
is refused. -/
theorem import_error_iff_no_separator_witness :
    (∃ out, resourceCloudflareHyperdriveConfigImport rejectingWriter absentAPI ()
        ⟨"acct/", unsetAttrs⟩ = .ok out ∧ out.err.isSome = false) ∧
    (∃ out, resourceCloudflareHyperdriveConfigImport rejectingWriter absentAPI ()
        ⟨"malformed", unsetAttrs⟩ = .ok out ∧ out.err.isSome = true ∧ out.result = []) := by
  have h1 := import_error_iff_no_separator rejectingWriter absentAPI () ⟨"acct/", unsetAttrs⟩
  have h2 := import_error_iff_no_separator rejectingWriter absentAPI () ⟨"malformed", unsetAttrs⟩
  obtain ⟨o1, e1⟩ := h1.2.2 (by intro k v p; simp [rejectingWriter])
  have n1 : ¬ (o1.err.isSome = true) := fun hx => ((h1.1 o1 e1).1 hx) (by decide)
  refine ⟨⟨o1, e1, by simpa using n1⟩, ⟨_, h2.2.1 (by decide), rfl, rfl⟩⟩

/-- C2, as stated, fails: on the ID `acct123/res456` and a remote that reports the
resource absent, the importer returns no error and one resource data whose Identity
is the empty string, not `res456`. -/
theorem import_identity_empty_when_remote_absent :
    ∃ out d1, resourceCloudflareHyperdriveConfigImport rejectingWriter absentAPI ()
        ⟨"acct123/res456", unsetAttrs⟩ = .ok out ∧
      out.err = none ∧ out.result = [d1] ∧ d1.Id = "" ∧ d1.Id ≠ "res456" :=
  ⟨_, _, rfl, rfl, rfl, rfl, by decide⟩

/-- The importer on an ID `s/r` where `s` has no `/`: it is the Read on the seeded
state with the diagnostics dropped, and whatever it returns has no error, one resource
data with `account_id` `s`, and the Identity `r` or, after a not-found, the empty
string. -/
theorem Import_seeded (w : FieldWriter) (client : API σ) (remote : σ)
    (d : ResourceData) :
    (∀ s r : String, '/' ∉ s.data → d.Id = s ++ "/" ++ r →
      resourceCloudflareHyperdriveConfigImport w client remote d =
        Except.map (fun out => { result := [out.d], err := none, remote := out.remote,
                                 calls := out.calls })
          (resourceCloudflareHyperdriveConfigRead w client remote
            ((d.put AccountIDSchemaKey (.str s)).SetId r)) ∧
      (∀ out, resourceCloudflareHyperdriveConfigImport w client remote d = .ok out →
        out.err = none ∧ out.calls = [.get s r] ∧
        ∃ d1, out.result = [d1] ∧ d1.Get AccountIDSchemaKey = .str s ∧
          d1.Id = match (client.GetHyperdriveConfig remote s r).2 with
                  | .error err => if err.asNotFound then "" else r
                  | .ok _ => r) ∧
      ((∀ k v p, w k v ≠ .crashed p) →
        ∃ out, resourceCloudflareHyperdriveConfigImport w client remote d = .ok out)) ∧
    ('/' ∉ d.Id.data →
      ∃ out, resourceCloudflareHyperdriveConfigImport w client remote d = .ok out ∧
        out.err.isSome = true ∧ out.result = [] ∧ out.calls = []) := by
  refine ⟨?_, fun hs => ⟨_, Import_no_sep w client remote d hs, rfl, rfl, rfl⟩⟩
  intro s r hs hid
  have e : d.Id.data = s.data ++ '/' :: r.data := by
    rw [hid]
    simp [String.data_append]
  have hI := Import_sep w client remote d s.data r.data e hs
  have hseed : ((d.put AccountIDSchemaKey (.str s)).SetId r).Get AccountIDSchemaKey = .str s := by
    simp [ResourceData.SetId, ResourceData.Get, ResourceData.put]
  refine ⟨hI, ?_, ?_⟩
  · intro out h
    rw [hI] at h
    cases hr : resourceCloudflareHyperdriveConfigRead w client remote
        ((d.put AccountIDSchemaKey (.str s)).SetId r) with
    | error p =>
      have hr2 : resourceCloudflareHyperdriveConfigRead w client remote
          ((d.put AccountIDSchemaKey (.str (String.mk s.data))).SetId (String.mk r.data))
          = .error p := hr
      simp [hr2, Except.map] at h
    | ok o =>
      have hr2 : resourceCloudflareHyperdriveConfigRead w client remote
          ((d.put AccountIDSchemaKey (.str (String.mk s.data))).SetId (String.mk r.data))
          = .ok o := hr
      simp only [hr2, Except.map, Except.ok.injEq] at h
      subst h
      obtain ⟨hacc, acct, hacct, -, hcalls, hid2⟩ := Read_frame w client remote _ o hr
      rw [hseed] at hacct hacc
      have hs2 : s = acct := by simpa using hacct
      subst hs2
      exact ⟨rfl, hcalls, o.d, rfl, hacc, hid2⟩
  · intro hw
    obtain ⟨o, ho⟩ := Read_returns w client remote
      ((d.put AccountIDSchemaKey (.str s)).SetId r) s hseed hw
    have ho2 : resourceCloudflareHyperdriveConfigRead w client remote
        ((d.put AccountIDSchemaKey (.str (String.mk s.data))).SetId (String.mk r.data))
        = .ok o := ho
    exact ⟨_, by rw [hI, ho2]; rfl⟩

/-- C2, amended: on an ID `s/r` where `s` has no `/`, the importer sets `account_id`
to `s` and the Identity to `r` and runs Read on that state; its outcome is that of the
Read with the diagnostics dropped. When the lookup of `r` fails, the importer returns
no error and exactly one resource data, the seeded state, whose Identity is `r`, or
the empty string when the failure is a not-found. When the lookup succeeds, the
importer returns exactly when `d.Set` panics neither on `origin` nor, once `origin` is
stored, on `caching`. Whatever it returns has no error and exactly one resource data,
with `account_id` `s`, after the one client call that looks up `r` in account `s`.
On an ID without `/` it returns an error and no resource data. -/
theorem import_seeds_scope_and_identity (w : FieldWriter) (client : API σ) (remote : σ)
    (d : ResourceData) :
    (∀ s r : String, '/' ∉ s.data → d.Id = s ++ "/" ++ r →
      resourceCloudflareHyperdriveConfigImport w client remote d =
        Except.map (fun out => { result := [out.d], err := none, remote := out.remote,
                                 calls := out.calls })
          (resourceCloudflareHyperdriveConfigRead w client remote
            ((d.put AccountIDSchemaKey (.str s)).SetId r)) ∧
      (∀ remote1 err, client.GetHyperdriveConfig remote s r = (remote1, .error err) →
        resourceCloudflareHyperdriveConfigImport w client remote d =
          .ok { result := [{ id := if err.asNotFound then "" else r,
                             attrs := (d.put AccountIDSchemaKey (.str s)).attrs }],
                err := none, remote := remote1, calls := [.get s r] }) ∧
      (∀ remote1 resp, client.GetHyperdriveConfig remote s r = (remote1, .ok resp) →
        ((∃ out, resourceCloudflareHyperdriveConfigImport w client remote d = .ok out) ↔
          (∀ p, w "origin" (.origin resp.Origin) ≠ .crashed p) ∧
          (∀ v, w "origin" (.origin resp.Origin) = .stored v →
            ∀ p, w "caching" (.caching resp.Caching) ≠ .crashed p))) ∧
      (∀ out, resourceCloudflareHyperdriveConfigImport w client remote d = .ok out →
        out.err = none ∧ out.calls = [.get s r] ∧
        ∃ d1, out.result = [d1] ∧ d1.Get AccountIDSchemaKey = .str s ∧
          d1.Id = match (client.GetHyperdriveConfig remote s r).2 with
                  | .error err => if err.asNotFound then "" else r
                  | .ok _ => r) ∧
      ((∀ k v p, w k v ≠ .crashed p) →
        ∃ out, resourceCloudflareHyperdriveConfigImport w client remote d = .ok out)) ∧
    ('/' ∉ d.Id.data →
      ∃ out, resourceCloudflareHyperdriveConfigImport w client remote d = .ok out ∧
        out.err.isSome = true ∧ out.result = [] ∧ out.calls = []) := by
  have hold := Import_seeded w client remote d
  refine ⟨?_, hold.2⟩
  intro s r hs hid
  obtain ⟨hI, hout, hret⟩ := hold.1 s r hs hid
  have hseed : ((d.put AccountIDSchemaKey (.str s)).SetId r).Get AccountIDSchemaKey = .str s := by
    simp [ResourceData.SetId, ResourceData.Get, ResourceData.put]
  refine ⟨hI, ?_, ?_, hout, hret⟩
  · intro remote1 err hc
    rw [hI, Read_of_error w client remote remote1 _ s err hseed hc]
    cases hnf : err.asNotFound <;> rfl
  · intro remote1 resp hc
    rw [hI, Read_of_ok w client remote remote1 _ s resp hseed hc]
    cases h1 : w "origin" (.origin resp.Origin) with
    | crashed p =>
      constructor
      · rintro ⟨out, ho⟩
        simp [Except.map] at ho
      · rintro ⟨hn, -⟩
        exact absurd rfl (hn p)
    | rejected err =>
      exact ⟨fun _ => ⟨by simp, by simp⟩, fun _ => ⟨_, rfl⟩⟩
    | stored v =>
      cases h2 : w "caching" (.caching resp.Caching) with
      | crashed p =>
        constructor
        · rintro ⟨out, ho⟩
          simp [Except.map] at ho
        · rintro ⟨-, hn⟩
          exact absurd rfl (hn v rfl p)
      | rejected err =>
        exact ⟨fun _ => ⟨by simp, by simp⟩, fun _ => ⟨_, rfl⟩⟩
      | stored v2 =>
        exact ⟨fun _ => ⟨by simp, by simp⟩, fun _ => ⟨_, rfl⟩⟩

/-- The amended C2 at concrete inputs. Against a remote whose lookup fails with an
error other than not-found, `acct123/res456` gives scope `acct123` and Identity
`res456`; against a remote that has the resource and a `d.Set` that panics on
`origin`, the importer does not return; `malformed` gives an error and no resource
data. -/
theorem import_seeds_scope_and_identity_witness :
    (∃ out d1, resourceCloudflareHyperdriveConfigImport rejectingWriter
        (failingAPI (.other "remote unavailable")) () ⟨"acct123/res456", unsetAttrs⟩ = .ok out ∧
      out.err = none ∧ out.result = [d1] ∧
      d1.Get AccountIDSchemaKey = .str "acct123" ∧ d1.Id = "res456") ∧
    (¬ ∃ out, resourceCloudflareHyperdriveConfigImport panickingWriter
        (servingAPI { ID := "res456" }) () ⟨"acct123/res456", unsetAttrs⟩ = .ok out) ∧
    (∃ out, resourceCloudflareHyperdriveConfigImport rejectingWriter
        (failingAPI (.other "remote unavailable")) () ⟨"malformed", unsetAttrs⟩ = .ok out ∧
      out.err.isSome = true ∧ out.result = [] ∧ out.calls = []) := by
  have h1 := import_seeds_scope_and_identity rejectingWriter
    (failingAPI (.other "remote unavailable")) () ⟨"acct123/res456", unsetAttrs⟩
  have h2 := import_seeds_scope_and_identity rejectingWriter
    (failingAPI (.other "remote unavailable")) () ⟨"malformed", unsetAttrs⟩
  have h3 := import_seeds_scope_and_identity panickingWriter
    (servingAPI { ID := "res456" }) () ⟨"acct123/res456", unsetAttrs⟩
  obtain ⟨-, hfail, -, hout, -⟩ := h1.1 "acct123" "res456" (by decide) (by decide)
  have e := hfail () (.other "remote unavailable") rfl
  obtain ⟨herr, -, d1, hres, hacc, hid⟩ := hout _ e
  obtain ⟨-, -, hiff, -, -⟩ := h3.1 "acct123" "res456" (by decide) (by decide)
  refine ⟨⟨_, d1, e, herr, hres, hacc, hid⟩, ?_, h2.2 (by decide)⟩
  intro hex
  exact ((hiff () { ID := "res456" } rfl).1 hex).1 (.interfaceConversion "*schema.Set") rfl

end Import

/-! ## Read, Delete and Update: error handling -/

section Errors

variable {σ : Type}

/-- C3: when the lookup of the Identity fails with an error whose chain holds a
`NotFoundError`, Read returns no diagnostics and clears the Identity, every other field
staying as it was; when it fails with any other error, Read returns one error
diagnostic wrapping that error and leaves the whole state, Identity included, as it
was. -/
theorem read_clears_identity_on_not_found (w : FieldWriter) (client : API σ)
    (remote remote1 : σ) (d : ResourceData) (acct : String) (err : GoError)
    (ha : d.Get AccountIDSchemaKey = .str acct)
    (hc : client.GetHyperdriveConfig remote acct d.Id = (remote1, .error err)) :
    (err.asNotFound = true →
      resourceCloudflareHyperdriveConfigRead w client remote d =
        .ok { d := { id := "", attrs := d.attrs }, remote := remote1,
              calls := [.get acct d.Id], diags := [] }) ∧
    (err.asNotFound = false →
      resourceCloudflareHyperdriveConfigRead w client remote d =
        .ok { d := d, remote := remote1, calls := [.get acct d.Id],
              diags := [.wrapf "error finding Hyperdrive Config %q: %w" [d.Id] err] }) := by
  have h := Read_of_error w client remote remote1 d acct err ha hc
  constructor
  · intro hnf
    rw [h, if_pos hnf]
    rfl
  · intro hnf
    rw [h, if_neg (by simp [hnf])]

/-- C3 at concrete inputs: a remote without the resource, and a remote that is down. -/
theorem read_clears_identity_on_not_found_witness :
    resourceCloudflareHyperdriveConfigRead rejectingWriter absentAPI ()
        ⟨"res456", basicTestAttrs⟩ =
      .ok { d := { id := "", attrs := basicTestAttrs }, remote := (),
            calls := [.get "acct123" "res456"], diags := [] } ∧
    resourceCloudflareHyperdriveConfigRead rejectingWriter
        (failingAPI (.other "remote unavailable")) () ⟨"res456", basicTestAttrs⟩ =
      .ok { d := ⟨"res456", basicTestAttrs⟩, remote := (),
            calls := [.get "acct123" "res456"],
            diags := [.wrapf "error finding Hyperdrive Config %q: %w" ["res456"]
              (.other "remote unavailable")] } :=
  ⟨(read_clears_identity_on_not_found rejectingWriter absentAPI () ()
      ⟨"res456", basicTestAttrs⟩ "acct123" (.notFound "hyperdrive config not found")
      rfl rfl).1 rfl,
   (read_clears_identity_on_not_found rejectingWriter
      (failingAPI (.other "remote unavailable")) () ()
      ⟨"res456", basicTestAttrs⟩ "acct123" (.other "remote unavailable") rfl rfl).2 rfl⟩

/-- C4, the code at the failing inputs: the Read that the importer runs returns an error
diagnostic (the lookup failed with an error that is not not-found; or the lookup
succeeded and the field writer refused `origin`), and the importer still returns the
resource data with a `nil` error. -/
theorem import_drops_read_diagnostics :
    (∃ outR outI,
      resourceCloudflareHyperdriveConfigRead rejectingWriter
          (failingAPI (.other "internal server error")) ()
          ⟨"res456", (ResourceData.put ⟨"acct123/res456", unsetAttrs⟩ AccountIDSchemaKey
            (.str "acct123")).attrs⟩ = .ok outR ∧
      outR.diags = [.wrapf "error finding Hyperdrive Config %q: %w" ["res456"]
        (.other "internal server error")] ∧
      resourceCloudflareHyperdriveConfigImport rejectingWriter
          (failingAPI (.other "internal server error")) ()
          ⟨"acct123/res456", unsetAttrs⟩ = .ok outI ∧
      outI.err = none ∧ outI.result = [outR.d]) ∧
    (∃ outR outI,
      resourceCloudflareHyperdriveConfigRead rejectingWriter (servingAPI {}) ()
          ⟨"res456", (ResourceData.put ⟨"acct123/res456", unsetAttrs⟩ AccountIDSchemaKey
            (.str "acct123")).attrs⟩ = .ok outR ∧
      outR.diags = [.wrapf "failed to set origin: %w" [] (.other "could not convert value")] ∧
      resourceCloudflareHyperdriveConfigImport rejectingWriter (servingAPI {}) ()
          ⟨"acct123/res456", unsetAttrs⟩ = .ok outI ∧
      outI.err = none ∧ outI.result = [outR.d]) :=
  ⟨⟨_, _, rfl, rfl, rfl, rfl, rfl⟩, ⟨_, _, rfl, rfl, rfl, rfl, rfl⟩⟩

/-- C5, as stated, fails: against a remote that refuses the empty ID, a first Delete of
`res456` succeeds and clears the Identity, and the second Delete, on the cleared
Identity, calls the remote delete with the empty ID and returns an error. -/
theorem second_delete_calls_remote_and_errors :
    ∃ out1 out2,
      resourceCloudflareHyperdriveConfigDelete strictDeleteAPI () ⟨"res456", basicTestAttrs⟩
        = .ok out1 ∧
      out1.diags = [] ∧ out1.d.Id = "" ∧
      resourceCloudflareHyperdriveConfigDelete strictDeleteAPI out1.remote out1.d = .ok out2 ∧
      out2.calls = [.delete "acct123" ""] ∧
      out2.diags = [.wrapf "error deleting hyperdrive config" []
        (.other "required hyperdrive config id missing")] :=
  ⟨_, _, rfl, rfl, rfl, rfl, rfl, rfl⟩

/-- C5, amended: Delete has no guard of its own. On an already-cleared (empty) Identity
it still returns, having called the remote delete once with the empty ID; the local
state is left as it was, and no error is returned exactly when that remote call
succeeds. -/
theorem delete_on_cleared_identity (client : API σ) (remote : σ) (d : ResourceData)
    (acct : String) (ha : d.Get AccountIDSchemaKey = .str acct) (hid : d.Id = "") :
    ∃ out, resourceCloudflareHyperdriveConfigDelete client remote d = .ok out ∧
      out.calls = [.delete acct ""] ∧
      out.d = d ∧
      out.remote = (client.DeleteHyperdriveConfig remote acct "").1 ∧
      (out.diags = [] ↔ (client.DeleteHyperdriveConfig remote acct "").2 = none) := by
  unfold resourceCloudflareHyperdriveConfigDelete
  simp only [ha, Value.asString, bind, Except.bind, hid, pure, Except.pure]
  rcases hc : client.DeleteHyperdriveConfig remote acct "" with ⟨remote1, _ | err⟩
  · refine ⟨_, rfl, rfl, ?_, rfl, by simp⟩
    cases d
    simp only [ResourceData.Id] at hid
    simp [ResourceData.SetId, hid]
  · exact ⟨_, rfl, rfl, rfl, rfl, by simp⟩

/-- The amended C5 at a concrete input: the state a successful Delete left, deleted
again on a remote that accepts the empty ID. -/
theorem delete_on_cleared_identity_witness :
    ∃ out, resourceCloudflareHyperdriveConfigDelete (servingAPI {}) () ⟨"", basicTestAttrs⟩
        = .ok out ∧
      out.calls = [.delete "acct123" ""] ∧ out.diags = [] := by
  obtain ⟨out, h, hcalls, -, -, hd⟩ :=
    delete_on_cleared_identity (servingAPI {}) () ⟨"", basicTestAttrs⟩ "acct123" rfl rfl
  exact ⟨out, h, hcalls, hd.2 rfl⟩

/-- C9: when the remote delete fails, Delete returns one error diagnostic wrapping the
failure and leaves the whole state, Identity included, as it was; when the remote
delete succeeds, Delete returns no diagnostics and sets the Identity to the empty
string, every other field staying as it was. -/
theorem delete_error_keeps_identity_success_clears (client : API σ) (remote : σ)
    (d : ResourceData) (acct : String) (ha : d.Get AccountIDSchemaKey = .str acct) :
    (∀ remote1 err, client.DeleteHyperdriveConfig remote acct d.Id = (remote1, some err) →
      resourceCloudflareHyperdriveConfigDelete client remote d =
        .ok { d := d, remote := remote1, calls := [.delete acct d.Id],
              diags := [.wrapf "error deleting hyperdrive config" [] err] }) ∧
    (∀ remote1, client.DeleteHyperdriveConfig remote acct d.Id = (remote1, none) →
      resourceCloudflareHyperdriveConfigDelete client remote d =
        .ok { d := { id := "", attrs := d.attrs }, remote := remote1,
              calls := [.delete acct d.Id], diags := [] }) := by
  constructor
  · intro remote1 err hc
    unfold resourceCloudflareHyperdriveConfigDelete
    simp only [ha, Value.asString, bind, Except.bind, hc, pure, Except.pure]
  · intro remote1 hc
    unfold resourceCloudflareHyperdriveConfigDelete
    simp only [ha, Value.asString, bind, Except.bind, hc, pure, Except.pure]
    rfl

/-- C9 at concrete inputs: a remote on which the delete fails, and one on which it
succeeds. -/
theorem delete_error_keeps_identity_success_clears_witness :
    resourceCloudflareHyperdriveConfigDelete (failingAPI (.other "remote unavailable")) ()
        ⟨"res456", basicTestAttrs⟩ =
      .ok { d := ⟨"res456", basicTestAttrs⟩, remote := (),
            calls := [.delete "acct123" "res456"],
            diags := [.wrapf "error deleting hyperdrive config" []
              (.other "remote unavailable")] } ∧
    resourceCloudflareHyperdriveConfigDelete (servingAPI {}) () ⟨"res456", basicTestAttrs⟩ =
      .ok { d := { id := "", attrs := basicTestAttrs }, remote := (),
            calls := [.delete "acct123" "res456"], diags := [] } :=
  ⟨(delete_error_keeps_identity_success_clears (failingAPI (.other "remote unavailable")) ()
      ⟨"res456", basicTestAttrs⟩ "acct123" rfl).1 () _ rfl,
   (delete_error_keeps_identity_success_clears (servingAPI {}) ()
      ⟨"res456", basicTestAttrs⟩ "acct123" rfl).2 () rfl⟩

/-- Lines 124-134 of Update, reached once the update request `p` is built: Update fails
with one error diagnostic wrapping the failure when the remote update fails, and with
the error of an empty response when the remote update answers with an empty ID; in
both cases the update is the only client call (no Read) and the local state is as it
was. When the remote update answers with a non-empty ID, Update returns what the
subsequent Read returns. On the states the schema admits with `origin` present the
request is never built, see `Update_panics_of_conforms`. -/
theorem update_errors_skip_read (w : FieldWriter) (client : API σ) (remote : σ)
    (d : ResourceData) (acct : String) (p : UpdateHyperdriveConfigParams)
    (ha : d.Get AccountIDSchemaKey = .str acct)
    (hp : newUpdateHyperdriveConfigParams d = .ok p) :
    (∀ remote1 err, client.UpdateHyperdriveConfig remote acct p = (remote1, .error err) →
      resourceCloudflareHyperdriveConfigUpdate w client remote d =
        .ok { d := d, remote := remote1, calls := [.update acct p],
              diags := [.wrapf "error updating hyperdrive config" [] err] }) ∧
    (∀ remote1 r, client.UpdateHyperdriveConfig remote acct p = (remote1, .ok r) → r.ID = "" →
      resourceCloudflareHyperdriveConfigUpdate w client remote d =
        .ok { d := d, remote := remote1, calls := [.update acct p],
              diags := [.errorf "failed to find id in Update response; resource was empty"
                []] }) ∧
    (∀ remote1 r, client.UpdateHyperdriveConfig remote acct p = (remote1, .ok r) → r.ID ≠ "" →
      resourceCloudflareHyperdriveConfigUpdate w client remote d =
        Except.map (fun out => { out with calls := .update acct p :: out.calls })
          (resourceCloudflareHyperdriveConfigRead w client remote1 d)) := by
  refine ⟨?_, ?_, ?_⟩
  · intro remote1 err hc
    unfold resourceCloudflareHyperdriveConfigUpdate
    simp only [ha, hp, Value.asString, bind, Except.bind, hc, pure, Except.pure]
  · intro remote1 r hc hr
    unfold resourceCloudflareHyperdriveConfigUpdate
    simp only [ha, hp, Value.asString, bind, Except.bind, hc, pure, Except.pure, hr, if_true]
  · intro remote1 r hc hr
    unfold resourceCloudflareHyperdriveConfigUpdate
    simp only [ha, hp, Value.asString, bind, Except.bind, hc, pure, Except.pure, hr, if_false]
    cases resourceCloudflareHyperdriveConfigRead w client remote1 d <;> rfl

/-- Lines 124-134 of Update on a state without `origin` and `caching`: a failing remote,
a remote answering with an empty ID, and a remote answering with the ID `res456`. -/
theorem update_errors_skip_read_witness :
    resourceCloudflareHyperdriveConfigUpdate rejectingWriter
        (failingAPI (.other "remote unavailable")) () ⟨"res456", scalarOnlyAttrs⟩ =
      .ok { d := ⟨"res456", scalarOnlyAttrs⟩, remote := (),
            calls := [.update "acct123" { HyperdriveID := "res456", Name := "rnd-updated",
                                          Password := "updated-password" }],
            diags := [.wrapf "error updating hyperdrive config" []
              (.other "remote unavailable")] } ∧
    resourceCloudflareHyperdriveConfigUpdate rejectingWriter (servingAPI {}) ()
        ⟨"res456", scalarOnlyAttrs⟩ =
      .ok { d := ⟨"res456", scalarOnlyAttrs⟩, remote := (),
            calls := [.update "acct123" { HyperdriveID := "res456", Name := "rnd-updated",
                                          Password := "updated-password" }],
            diags := [.errorf "failed to find id in Update response; resource was empty"
              []] } ∧
    resourceCloudflareHyperdriveConfigUpdate rejectingWriter (servingAPI { ID := "res456" }) ()
        ⟨"res456", scalarOnlyAttrs⟩ =
      Except.map (fun out => { out with calls := (.update "acct123"
          { HyperdriveID := "res456", Name := "rnd-updated", Password := "updated-password" })
            :: out.calls })
        (resourceCloudflareHyperdriveConfigRead rejectingWriter
          (servingAPI { ID := "res456" }) () ⟨"res456", scalarOnlyAttrs⟩) :=
  ⟨(update_errors_skip_read rejectingWriter (failingAPI (.other "remote unavailable")) ()
      ⟨"res456", scalarOnlyAttrs⟩ "acct123" _ rfl rfl).1 () _ rfl,
   (update_errors_skip_read rejectingWriter (servingAPI {}) ()
      ⟨"res456", scalarOnlyAttrs⟩ "acct123" _ rfl rfl).2.1 () _ rfl rfl,
   (update_errors_skip_read rejectingWriter (servingAPI { ID := "res456" }) ()
      ⟨"res456", scalarOnlyAttrs⟩ "acct123" _ rfl rfl).2.2 () _ rfl (by decide)⟩

end Errors

/-! ## Create and Update: the requests -/

section Requests

variable {σ : Type}

theorem asString_ok {v : Value} {s : String} (h : v.asString = .ok s) : v = .str s := by
  cases v <;> simp [Value.asString] at h
  rw [h]

theorem asOrigin_ok {v : Value} {o : HyperdriveConfigOrigin} (h : v.asOrigin = .ok o) :
    v = .origin o := by
  cases v <;> simp [Value.asOrigin] at h
  rw [h]

theorem asCaching_ok {v : Value} {c : HyperdriveConfigCaching} (h : v.asCaching = .ok c) :
    v = .caching c := by
  cases v <;> simp [Value.asCaching] at h
  rw [h]

theorem bind_eq_ok {α β : Type} {x : Except Panic α} {k : α → Except Panic β} {c : β}
    (h : (x >>= k) = .ok c) : ∃ q, x = .ok q ∧ k q = .ok c := by
  cases x with
  | error e => simp [bind, Except.bind] at h
  | ok q => exact ⟨q, rfl, h⟩

theorem assignIfOk_eq {α β : Type} (d : ResourceData) (key : String)
    (conv : Value → Except Panic α) (p : β) (assign : β → α → β) :
    d.assignIfOk key conv p assign =
      if (d.GetOk key).2 = true then Except.map (assign p) (conv (d.Get key)) else .ok p := by
  unfold ResourceData.assignIfOk
  simp only [ResourceData.GetOk, ResourceData.Get]
  cases hz : (d.attrs key).isZero
  · cases hc : conv (d.attrs key) <;> simp [hc, Except.map]
  · simp

theorem assignIfOk_eq_ok {α β : Type} {d : ResourceData} {key : String}
    {conv : Value → Except Panic α} {p q : β} {assign : β → α → β}
    (h : d.assignIfOk key conv p assign = .ok q) :
    if (d.GetOk key).2 = true then ∃ x, conv (d.Get key) = .ok x ∧ q = assign p x else q = p := by
  unfold ResourceData.assignIfOk at h
  simp only [ResourceData.GetOk, ResourceData.Get] at h ⊢
  cases hz : (d.attrs key).isZero
  · simp only [hz, Bool.not_false] at h ⊢
    cases hc : conv (d.attrs key) with
    | error e => simp [hc] at h
    | ok x =>
      simp only [hc, Except.ok.injEq] at h
      simp [h]
  · simp only [hz, Bool.not_true, Except.ok.injEq] at h ⊢
    simp [h]

/-- C7: the update request is the create request built from the same state, with the
Identity added as `HyperdriveID` (in particular the one cannot be built exactly when
the other cannot). In the request, each of name, password, origin and caching is the
value of the state when `GetOk` reports it present, and the zero value otherwise. -/
theorem update_request_eq_create_request_plus_id (d : ResourceData) :
    newUpdateHyperdriveConfigParams d =
      Except.map (fun c => { HyperdriveID := d.Id, Name := c.Name, Password := c.Password,
                             Origin := c.Origin, Caching := c.Caching })
        (newCreateHyperdriveConfigParams d) ∧
    ∀ c, newCreateHyperdriveConfigParams d = .ok c →
      (if (d.GetOk "name").2 then d.Get "name" = .str c.Name else c.Name = "") ∧
      (if (d.GetOk "password").2 then d.Get "password" = .str c.Password
        else c.Password = "") ∧
      (if (d.GetOk "origin").2 then d.Get "origin" = .origin c.Origin else c.Origin = {}) ∧
      (if (d.GetOk "caching").2 then d.Get "caching" = .caching c.Caching
        else c.Caching = {}) := by
  constructor
  · unfold newUpdateHyperdriveConfigParams newCreateHyperdriveConfigParams
    simp only [assignIfOk_eq]
    generalize (d.Get "name").asString = a1
    generalize (d.Get "password").asString = a2
    generalize (d.Get "origin").asOrigin = a3
    generalize (d.Get "caching").asCaching = a4
    generalize (d.GetOk "name").2 = z1
    generalize (d.GetOk "password").2 = z2
    generalize (d.GetOk "origin").2 = z3
    generalize (d.GetOk "caching").2 = z4
    cases z1 <;> cases z2 <;> cases z3 <;> cases z4 <;>
      cases a1 <;> cases a2 <;> cases a3 <;> cases a4 <;> rfl
  · intro c h
    unfold newCreateHyperdriveConfigParams at h
    obtain ⟨p1, e1, h⟩ := bind_eq_ok h
    obtain ⟨p2, e2, h⟩ := bind_eq_ok h
    obtain ⟨p3, e3, h⟩ := bind_eq_ok h
    obtain ⟨p4, e4, h⟩ := bind_eq_ok h
    simp only [pure, Except.pure, Except.ok.injEq] at h
    subst h
    have f1 := assignIfOk_eq_ok e1
    have f2 := assignIfOk_eq_ok e2
    have f3 := assignIfOk_eq_ok e3
    have f4 := assignIfOk_eq_ok e4
    clear e1 e2 e3 e4
    cases z1 : (d.GetOk "name").2 <;> cases z2 : (d.GetOk "password").2 <;>
      cases z3 : (d.GetOk "origin").2 <;> cases z4 : (d.GetOk "caching").2 <;>
      simp only [z1, z2, z3, z4, if_true, if_false, Bool.false_eq_true] at f1 f2 f3 f4 ⊢ <;>
      (try obtain ⟨x1, c1, f1⟩ := f1) <;> (try obtain ⟨x2, c2, f2⟩ := f2) <;>
      (try obtain ⟨x3, c3, f3⟩ := f3) <;> (try obtain ⟨x4, c4, f4⟩ := f4) <;>
      (try subst f4) <;> (try subst f3) <;> (try subst f2) <;> (try subst f1) <;>
      refine ⟨?_, ?_, ?_, ?_⟩ <;>
      first
        | rfl
        | exact asString_ok c1
        | exact asString_ok c2
        | exact asOrigin_ok c3
        | exact asCaching_ok c4

/-- C7 at concrete inputs: for a state with all four fields present, the update request
is the create request plus the Identity; for a state with `origin` and `caching`
absent, the create request has the name of the state and the zero origin. -/
theorem update_request_eq_create_request_plus_id_witness :
    newUpdateHyperdriveConfigParams ⟨"res456", structAttrs⟩ =
      .ok { HyperdriveID := "res456", Name := "db1", Password := "password",
            Origin := { Database := "d", Host := "h", Port := 5432, Scheme := "postgres",
                        User := "u" },
            Caching := { Disabled := some false, MaxAge := 1, StaleWhileRevalidate := 1 } } ∧
    newCreateHyperdriveConfigParams ⟨"res456", scalarOnlyAttrs⟩ =
      .ok { Name := "rnd-updated", Password := "updated-password" } ∧
    ResourceData.Get ⟨"res456", scalarOnlyAttrs⟩ "name" = .str "rnd-updated" ∧
    ({ Name := "rnd-updated", Password := "updated-password" } :
      CreateHyperdriveConfigParams).Origin = {} := by
  have h1 := (update_request_eq_create_request_plus_id ⟨"res456", structAttrs⟩).1
  have h2 := (update_request_eq_create_request_plus_id ⟨"res456", scalarOnlyAttrs⟩).2
    { Name := "rnd-updated", Password := "updated-password" } rfl
  exact ⟨by rw [h1]; rfl, rfl, Eq.mp (if_pos (by decide)) h2.1,
    Eq.mp (if_neg (by decide)) h2.2.2.1⟩

/-! ## Create on a valid desired state -/

/-- On every state that conforms to the schema and has `origin` present, Create panics
in the type assertion on `origin`, before any client call: the value of a `TypeSet`
field is a `*schema.Set`, not a `cloudflare.HyperdriveConfigOrigin`. -/
theorem Create_panics_of_conforms (w : FieldWriter) (client : API σ) (remote : σ)
    (d : ResourceData) (hc : d.conforms = true) (ho : (d.GetOk "origin").2 = true) :
    resourceCloudflareHyperdriveConfigCreate w client remote d =
      .error (.interfaceConversion "cloudflare.HyperdriveConfigOrigin") := by
  simp only [ResourceData.conforms, resourceCloudflareHyperdriveConfigSchema, List.all_cons,
    List.all_nil, Bool.and_true, Bool.and_eq_true] at hc
  obtain ⟨h1, h2, h3, h4, -⟩ := hc
  have ha : ∃ a, d.Get AccountIDSchemaKey = .str a := by
    have h : ValueType.admits .TypeString (d.Get AccountIDSchemaKey) = true := h1
    cases hv : d.Get AccountIDSchemaKey <;> simp [hv, ValueType.admits] at h
    exact ⟨_, rfl⟩
  have hn : ∃ n, d.Get "name" = .str n := by
    cases hv : d.Get "name" <;> simp [hv, ValueType.admits] at h2
    exact ⟨_, rfl⟩
  have hpw : ∃ n, d.Get "password" = .str n := by
    cases hv : d.Get "password" <;> simp [hv, ValueType.admits] at h3
    exact ⟨_, rfl⟩
  have hset : ∃ xs, d.Get "origin" = .set xs := by
    cases hv : d.Get "origin" <;> simp [hv, ValueType.admits] at h4
    exact ⟨_, rfl⟩
  obtain ⟨a, ha⟩ := ha
  obtain ⟨n, hn⟩ := hn
  obtain ⟨pw, hpw⟩ := hpw
  obtain ⟨xs, hxs⟩ := hset
  unfold resourceCloudflareHyperdriveConfigCreate newCreateHyperdriveConfigParams
  simp only [assignIfOk_eq, ha, hn, hpw, hxs, ho, Value.asString, Value.asOrigin, bind,
    Except.bind, Except.map, if_true]
  cases (d.GetOk "name").2 <;> cases (d.GetOk "password").2 <;> rfl

/-- On every state that conforms to the schema and has `origin` present, Update panics
in the type assertion on `origin` (line 115), before any client call, as Create does
at line 45. -/
theorem Update_panics_of_conforms (w : FieldWriter) (client : API σ) (remote : σ)
    (d : ResourceData) (hc : d.conforms = true) (ho : (d.GetOk "origin").2 = true) :
    resourceCloudflareHyperdriveConfigUpdate w client remote d =
      .error (.interfaceConversion "cloudflare.HyperdriveConfigOrigin") := by
  simp only [ResourceData.conforms, resourceCloudflareHyperdriveConfigSchema, List.all_cons,
    List.all_nil, Bool.and_true, Bool.and_eq_true] at hc
  obtain ⟨h1, h2, h3, h4, -⟩ := hc
  have ha : ∃ a, d.Get AccountIDSchemaKey = .str a := by
    have h : ValueType.admits .TypeString (d.Get AccountIDSchemaKey) = true := h1
    cases hv : d.Get AccountIDSchemaKey <;> simp [hv, ValueType.admits] at h
    exact ⟨_, rfl⟩
  have hn : ∃ n, d.Get "name" = .str n := by
    cases hv : d.Get "name" <;> simp [hv, ValueType.admits] at h2
    exact ⟨_, rfl⟩
  have hpw : ∃ n, d.Get "password" = .str n := by
    cases hv : d.Get "password" <;> simp [hv, ValueType.admits] at h3
    exact ⟨_, rfl⟩
  have hset : ∃ xs, d.Get "origin" = .set xs := by
    cases hv : d.Get "origin" <;> simp [hv, ValueType.admits] at h4
    exact ⟨_, rfl⟩
  obtain ⟨a, ha⟩ := ha
  obtain ⟨n, hn⟩ := hn
  obtain ⟨pw, hpw⟩ := hpw
  obtain ⟨xs, hxs⟩ := hset
  unfold resourceCloudflareHyperdriveConfigUpdate newUpdateHyperdriveConfigParams
  simp only [assignIfOk_eq, ha, hn, hpw, hxs, ho, Value.asString, Value.asOrigin, bind,
    Except.bind, Except.map, if_true]
  cases (d.GetOk "name").2 <;> cases (d.GetOk "password").2 <;> rfl

/-- C6, the code at the failing input: the state of the second step of the acceptance
test is a valid desired state, and on it Update panics for every remote client and
field writer, whatever the remote update would answer: the remote update is never
called, so Update neither returns the error of a failing remote or of an empty
response, nor the result of a Read. -/
theorem update_panics_on_acceptance_test_state :
    ResourceData.valid ⟨"res456", updateTestAttrs⟩ = true ∧
    ∀ (τ : Type) (w : FieldWriter) (client : API τ) (remote : τ),
      resourceCloudflareHyperdriveConfigUpdate w client remote ⟨"res456", updateTestAttrs⟩ =
        .error (.interfaceConversion "cloudflare.HyperdriveConfigOrigin") :=
  ⟨by decide, fun _ _ _ _ => rfl⟩

/-- C8, the code at the failing input: the state of the first step of the acceptance
test is a valid desired state (it conforms to the schema and has every required field),
and on it Create panics for every remote client and field writer; it never reaches
the remote, stores no Identity and performs no Read. -/
theorem create_panics_on_acceptance_test_state :
    ResourceData.valid ⟨"", basicTestAttrs⟩ = true ∧
    ∀ (τ : Type) (w : FieldWriter) (client : API τ) (remote : τ),
      resourceCloudflareHyperdriveConfigCreate w client remote ⟨"", basicTestAttrs⟩ =
        .error (.interfaceConversion "cloudflare.HyperdriveConfigOrigin") :=
  ⟨by decide, fun _ _ _ _ => rfl⟩

end Requests

/-! ## The Pages project request -/

section Pages

theorem asStrSlice_ok {v : Value} {xs : List String} (h : v.asStrSlice = .ok xs) :
    v = .strSlice xs := by
  cases v <;> simp [Value.asStrSlice] at h
  rw [h]

/-- The flags of a built deployment configuration: both environments carry the value
under the preview key when it is present, and none otherwise. -/
theorem deploymentConfigs_flags (d : ResourceData) (c : PagesProjectDeploymentConfigs)
    (h : buildPagesProjectDeploymentConfigs d = .ok c) :
    c.Production.CompatibilityFlags = c.Preview.CompatibilityFlags ∧
    if (d.GetOk previewCompatibilityFlagsKey).2 = true then
      d.Get previewCompatibilityFlagsKey = .strSlice c.Production.CompatibilityFlags
    else c.Production.CompatibilityFlags = [] := by
  unfold buildPagesProjectDeploymentConfigs at h
  obtain ⟨c1, e1, h⟩ := bind_eq_ok h
  obtain ⟨c2, e2, h⟩ := bind_eq_ok h
  obtain ⟨c3, e3, h⟩ := bind_eq_ok h
  obtain ⟨c4, e4, h⟩ := bind_eq_ok h
  obtain ⟨c5, e5, h⟩ := bind_eq_ok h
  obtain ⟨c6, e6, h⟩ := bind_eq_ok h
  simp only [pure, Except.pure, Except.ok.injEq] at h
  subst h
  have f1 := assignIfOk_eq_ok e1
  have f2 := assignIfOk_eq_ok e2
  have f3 := assignIfOk_eq_ok e3
  have f4 := assignIfOk_eq_ok e4
  have f5 := assignIfOk_eq_ok e5
  have f6 := assignIfOk_eq_ok e6
  clear e1 e2 e3 e4 e5 e6
  have hk : previewCompatibilityFlagsKey = "deployment_configs.0.preview.0.compatibility_flags" :=
    rfl
  rw [hk]
  cases z1 : (d.GetOk "deployment_configs.0.preview.0.environment_variables").2 <;>
    cases z2 : (d.GetOk "deployment_configs.0.preview.0.compatibility_date").2 <;>
    cases z3 : (d.GetOk "deployment_configs.0.preview.0.compatibility_flags").2 <;>
    cases z4 : (d.GetOk "deployment_configs.0.production.0.environment_variables").2 <;>
    cases z5 : (d.GetOk "deployment_configs.0.production.0.compatibility_date").2 <;>
    simp only [z1, z2, z3, z4, z5, if_true, if_false, Bool.false_eq_true] at f1 f2 f3 f4 f5 f6 ⊢ <;>
    (try obtain ⟨x1, y1, f1⟩ := f1) <;> (try obtain ⟨x2, y2, f2⟩ := f2) <;>
    (try obtain ⟨x3, y3, f3⟩ := f3) <;> (try obtain ⟨x4, y4, f4⟩ := f4) <;>
    (try obtain ⟨x5, y5, f5⟩ := f5) <;> (try obtain ⟨x6, y6, f6⟩ := f6) <;>
    (try subst f6) <;> (try subst f5) <;> (try subst f4) <;> (try subst f3) <;>
    (try subst f2) <;> (try subst f1) <;>
    first
      | exact ⟨rfl, rfl⟩
      | exact ⟨Except.ok.inj (y6.symm.trans y3), asStrSlice_ok y6⟩

theorem GetOk_congr {d1 d2 : ResourceData} {key : String} (h : d1.Get key = d2.Get key) :
    d1.GetOk key = d2.GetOk key := by
  simp only [ResourceData.Get] at h
  simp [ResourceData.GetOk, h]

theorem assignIfOk_congr {α β : Type} {d1 d2 : ResourceData} {key : String}
    (h : d1.Get key = d2.Get key) (conv : Value → Except Panic α) (p : β)
    (assign : β → α → β) :
    d1.assignIfOk key conv p assign = d2.assignIfOk key conv p assign := by
  unfold ResourceData.assignIfOk
  rw [GetOk_congr h]

/-- C10: in every project that `buildPagesProject` builds, the production compatibility
flags equal the preview compatibility flags, and both are the value stored under the
preview key `deployment_configs.0.preview.0.compatibility_flags` (none when that key
is absent); and two states that agree on every key other than
`deployment_configs.0.production.0.compatibility_flags` give the same result. -/
theorem production_flags_come_from_preview_key (d : ResourceData) :
    (∀ p, buildPagesProject d = .ok p →
      p.DeploymentConfigs.Production.CompatibilityFlags =
        p.DeploymentConfigs.Preview.CompatibilityFlags ∧
      if (d.GetOk previewCompatibilityFlagsKey).2 = true then
        d.Get previewCompatibilityFlagsKey =
          .strSlice p.DeploymentConfigs.Production.CompatibilityFlags
      else p.DeploymentConfigs.Production.CompatibilityFlags = []) ∧
    (∀ d2 : ResourceData,
      (∀ key, key ≠ productionCompatibilityFlagsKey → d2.Get key = d.Get key) →
      buildPagesProject d2 = buildPagesProject d) := by
  constructor
  · intro p h
    unfold buildPagesProject at h
    obtain ⟨name, -, h⟩ := bind_eq_ok h
    obtain ⟨bc, -, h⟩ := bind_eq_ok h
    obtain ⟨src, -, h⟩ := bind_eq_ok h
    obtain ⟨dc, hdc, h⟩ := bind_eq_ok h
    simp only [pure, Except.pure, Except.ok.injEq] at h
    subst h
    exact deploymentConfigs_flags d dc hdc
  · intro d2 h
    have hb : buildPagesProjectBuildConfig d2 = buildPagesProjectBuildConfig d := by
      unfold buildPagesProjectBuildConfig
      simp only [GetOk_congr (h "build_config" (by decide)),
        assignIfOk_congr (h "build_config.0.build_command" (by decide)),
        assignIfOk_congr (h "build_config.0.destination_dir" (by decide)),
        assignIfOk_congr (h "build_config.0.root_dir" (by decide)),
        assignIfOk_congr (h "build_config.0.web_analytics_tag" (by decide))]
    have hsc : buildPagesProjectSourceConfig d2 = buildPagesProjectSourceConfig d := by
      unfold buildPagesProjectSourceConfig
      simp only [assignIfOk_congr (h "source.0.config.0.owner" (by decide)),
        assignIfOk_congr (h "source.0.config.0.repo_name" (by decide)),
        assignIfOk_congr (h "source.0.config.0.production_branch" (by decide)),
        assignIfOk_congr (h "source.0.config.0.pr_comments_enabled" (by decide)),
        assignIfOk_congr (h "source.0.config.0.deployments_enabled" (by decide))]
    have hs : buildPagesProjectSource d2 = buildPagesProjectSource d := by
      unfold buildPagesProjectSource
      simp only [GetOk_congr (h "source" (by decide)),
        GetOk_congr (h "source.0.config" (by decide)),
        assignIfOk_congr (h "source.0.type" (by decide)), hsc]
    have hd : buildPagesProjectDeploymentConfigs d2 = buildPagesProjectDeploymentConfigs d := by
      unfold buildPagesProjectDeploymentConfigs
      simp only [h "deployment_configs.0.preview.0.compatibility_date" (by decide),
        h "deployment_configs.0.production.0.compatibility_date" (by decide),
        assignIfOk_congr (h "deployment_configs.0.preview.0.environment_variables" (by decide)),
        assignIfOk_congr (h "deployment_configs.0.preview.0.compatibility_date" (by decide)),
        assignIfOk_congr (h "deployment_configs.0.preview.0.compatibility_flags" (by decide)),
        assignIfOk_congr (h "deployment_configs.0.production.0.environment_variables"
          (by decide)),
        assignIfOk_congr (h "deployment_configs.0.production.0.compatibility_date" (by decide))]
    unfold buildPagesProject
    rw [h "name" (by decide), hb, hs, hd]

/-- C10 at a concrete input: a state with preview flags `["p"]` and production flags
`["q"]` builds a project whose production flags are `["p"]`, and replacing the
production flags by `["r"]` builds the same project. -/
theorem production_flags_come_from_preview_key_witness :
    (∃ p, buildPagesProject ⟨"", pagesAttrs⟩ = .ok p ∧
      p.DeploymentConfigs.Preview.CompatibilityFlags = ["p"] ∧
      p.DeploymentConfigs.Production.CompatibilityFlags = ["p"]) ∧
    buildPagesProject
        (ResourceData.put ⟨"", pagesAttrs⟩ productionCompatibilityFlagsKey (.strSlice ["r"])) =
      buildPagesProject ⟨"", pagesAttrs⟩ := by
  have h := production_flags_come_from_preview_key ⟨"", pagesAttrs⟩
  obtain ⟨p, hp⟩ : ∃ p, buildPagesProject ⟨"", pagesAttrs⟩ = .ok p := ⟨_, rfl⟩
  have h1 := h.1 p hp
  have h2 : p.DeploymentConfigs.Production.CompatibilityFlags = ["p"] := by
    have h3 := h1.2
    rw [if_pos (by decide)] at h3
    have h4 : Value.strSlice ["p"] =
        Value.strSlice p.DeploymentConfigs.Production.CompatibilityFlags := h3
    simpa using h4.symm
  refine ⟨⟨p, hp, h1.1 ▸ h2, h2⟩, h.2 _ ?_⟩
  intro key hk
  exact put_Get_of_ne _ _ hk

/-- The analytics fields of a built build configuration: the token carries the value of
the tag, which is the value under the tag key when the `build_config` block and that
key are present, and the empty string otherwise. -/
theorem buildConfig_token (d : ResourceData) (c : PagesProjectBuildConfig)
    (h : buildPagesProjectBuildConfig d = .ok c) :
    c.WebAnalyticsToken = c.WebAnalyticsTag ∧
    if (d.GetOk "build_config").2 = true ∧ (d.GetOk webAnalyticsTagKey).2 = true then
      d.Get webAnalyticsTagKey = .str c.WebAnalyticsToken
    else c.WebAnalyticsToken = "" := by
  unfold buildPagesProjectBuildConfig at h
  have hk : webAnalyticsTagKey = "build_config.0.web_analytics_tag" := rfl
  rw [hk]
  cases z0 : (d.GetOk "build_config").2
  · simp only [z0, Bool.false_eq_true, if_false, pure, Except.pure, Except.ok.injEq] at h
    subst h
    simp
  · simp only [z0, if_true] at h
    obtain ⟨c1, e1, h⟩ := bind_eq_ok h
    obtain ⟨c2, e2, h⟩ := bind_eq_ok h
    obtain ⟨c3, e3, h⟩ := bind_eq_ok h
    obtain ⟨c4, e4, h⟩ := bind_eq_ok h
    obtain ⟨c5, e5, h⟩ := bind_eq_ok h
    simp only [pure, Except.pure, Except.ok.injEq] at h
    subst h
    have f1 := assignIfOk_eq_ok e1
    have f2 := assignIfOk_eq_ok e2
    have f3 := assignIfOk_eq_ok e3
    have f4 := assignIfOk_eq_ok e4
    have f5 := assignIfOk_eq_ok e5
    clear e1 e2 e3 e4 e5
    cases z1 : (d.GetOk "build_config.0.build_command").2 <;>
      cases z2 : (d.GetOk "build_config.0.destination_dir").2 <;>
      cases z3 : (d.GetOk "build_config.0.root_dir").2 <;>
      cases z4 : (d.GetOk "build_config.0.web_analytics_tag").2 <;>
      simp only [z1, z2, z3, z4, if_true, if_false, Bool.false_eq_true, and_self, and_false,
        true_and] at f1 f2 f3 f4 f5 ⊢ <;>
      (try obtain ⟨x1, y1, f1⟩ := f1) <;> (try obtain ⟨x2, y2, f2⟩ := f2) <;>
      (try obtain ⟨x3, y3, f3⟩ := f3) <;> (try obtain ⟨x4, y4, f4⟩ := f4) <;>
      (try obtain ⟨x5, y5, f5⟩ := f5) <;>
      (try subst f5) <;> (try subst f4) <;> (try subst f3) <;> (try subst f2) <;>
      (try subst f1) <;>
      first
        | exact ⟨rfl, rfl⟩
        | exact ⟨Except.ok.inj (y5.symm.trans y4), asString_ok y5⟩

/-- C11: in every project that `buildPagesProject` builds, the web analytics token of
the build configuration equals the web analytics tag, and both are the value stored
under `build_config.0.web_analytics_tag` (the empty string when the `build_config`
block or that key is absent). A value under `build_config.0.web_analytics_token` has no
influence: two states that agree on every other key give the same result. Of the
enclosing `build_config` block only its presence has to agree, since its contents are
never read as a whole. -/
theorem web_analytics_token_comes_from_tag_key (d : ResourceData) :
    (∀ p, buildPagesProject d = .ok p →
      p.BuildConfig.WebAnalyticsToken = p.BuildConfig.WebAnalyticsTag ∧
      if (d.GetOk "build_config").2 = true ∧ (d.GetOk webAnalyticsTagKey).2 = true then
        d.Get webAnalyticsTagKey = .str p.BuildConfig.WebAnalyticsToken
      else p.BuildConfig.WebAnalyticsToken = "") ∧
    (∀ d2 : ResourceData,
      (∀ key, key ≠ webAnalyticsTokenKey → key ≠ "build_config" → d2.Get key = d.Get key) →
      (d2.GetOk "build_config").2 = (d.GetOk "build_config").2 →
      buildPagesProject d2 = buildPagesProject d) := by
  constructor
  · intro p h
    unfold buildPagesProject at h
    obtain ⟨name, -, h⟩ := bind_eq_ok h
    obtain ⟨bc, hbc, h⟩ := bind_eq_ok h
    obtain ⟨src, -, h⟩ := bind_eq_ok h
    obtain ⟨dc, -, h⟩ := bind_eq_ok h
    simp only [pure, Except.pure, Except.ok.injEq] at h
    subst h
    exact buildConfig_token d bc hbc
  · intro d2 h h0
    have hb : buildPagesProjectBuildConfig d2 = buildPagesProjectBuildConfig d := by
      unfold buildPagesProjectBuildConfig
      simp only [h0,
        assignIfOk_congr (h "build_config.0.build_command" (by decide) (by decide)),
        assignIfOk_congr (h "build_config.0.destination_dir" (by decide) (by decide)),
        assignIfOk_congr (h "build_config.0.root_dir" (by decide) (by decide)),
        assignIfOk_congr (h "build_config.0.web_analytics_tag" (by decide) (by decide))]
    have hsc : buildPagesProjectSourceConfig d2 = buildPagesProjectSourceConfig d := by
      unfold buildPagesProjectSourceConfig
      simp only [assignIfOk_congr (h "source.0.config.0.owner" (by decide) (by decide)),
        assignIfOk_congr (h "source.0.config.0.repo_name" (by decide) (by decide)),
        assignIfOk_congr (h "source.0.config.0.production_branch" (by decide) (by decide)),
        assignIfOk_congr (h "source.0.config.0.pr_comments_enabled" (by decide) (by decide)),
        assignIfOk_congr (h "source.0.config.0.deployments_enabled" (by decide) (by decide))]
    have hs : buildPagesProjectSource d2 = buildPagesProjectSource d := by
      unfold buildPagesProjectSource
      simp only [GetOk_congr (h "source" (by decide) (by decide)),
        GetOk_congr (h "source.0.config" (by decide) (by decide)),
        assignIfOk_congr (h "source.0.type" (by decide) (by decide)), hsc]
    have hd : buildPagesProjectDeploymentConfigs d2 = buildPagesProjectDeploymentConfigs d := by
      unfold buildPagesProjectDeploymentConfigs
      simp only [
        h "deployment_configs.0.preview.0.compatibility_date" (by decide) (by decide),
        h "deployment_configs.0.production.0.compatibility_date" (by decide) (by decide),
        assignIfOk_congr
          (h "deployment_configs.0.preview.0.environment_variables" (by decide) (by decide)),
        assignIfOk_congr
          (h "deployment_configs.0.preview.0.compatibility_date" (by decide) (by decide)),
        assignIfOk_congr
          (h "deployment_configs.0.preview.0.compatibility_flags" (by decide) (by decide)),
        assignIfOk_congr
          (h "deployment_configs.0.production.0.environment_variables" (by decide) (by decide)),
        assignIfOk_congr
          (h "deployment_configs.0.production.0.compatibility_date" (by decide) (by decide))]
    unfold buildPagesProject
    rw [h "name" (by decide) (by decide), hb, hs, hd]

/-- C11 at a concrete input: a state with tag `tag` and token `token` builds a project
whose token and tag are both `tag`, and replacing the value under the token key by
`other` builds the same project. -/
theorem web_analytics_token_comes_from_tag_key_witness :
    (∃ p, buildPagesProject ⟨"", pagesAttrs⟩ = .ok p ∧
      p.BuildConfig.WebAnalyticsTag = "tag" ∧ p.BuildConfig.WebAnalyticsToken = "tag") ∧
    buildPagesProject (ResourceData.put ⟨"", pagesAttrs⟩ webAnalyticsTokenKey (.str "other")) =
      buildPagesProject ⟨"", pagesAttrs⟩ := by
  have h := web_analytics_token_comes_from_tag_key ⟨"", pagesAttrs⟩
  obtain ⟨p, hp⟩ : ∃ p, buildPagesProject ⟨"", pagesAttrs⟩ = .ok p := ⟨_, rfl⟩
  have h1 := h.1 p hp
  have h2 : p.BuildConfig.WebAnalyticsToken = "tag" := by
    have h3 := h1.2
    rw [if_pos (by decide)] at h3
    have h4 : Value.str "tag" = Value.str p.BuildConfig.WebAnalyticsToken := h3
    simpa using h4.symm
  refine ⟨⟨p, hp, h1.1 ▸ h2, h2⟩, h.2 _ ?_ rfl⟩
  intro key hk _
  exact put_Get_of_ne _ _ hk

/-! ## Environment variables -/

theorem store_of_not_mem {β : Type} (m : GoMap β) (key : String) (v : β)
    (h : key ∉ m.map Prod.fst) : m.store key v = m ++ [(key, v)] := by
  induction m with
  | nil => rfl
  | cons e rest ih =>
    obtain ⟨k, x⟩ := e
    simp only [List.map_cons, List.mem_cons, not_or] at h
    have hk : k ≠ key := fun e => h.1 e.symm
    simp [GoMap.store, hk, ih h.2]

theorem find_map_snd {α β : Type} (m : GoMap α) (f : α → β) (key : String) :
    GoMap.find (m.map fun e => (e.1, f e.2)) key = (GoMap.find m key).map f := by
  induction m with
  | nil => rfl
  | cons e rest ih =>
    obtain ⟨k, x⟩ := e
    by_cases hk : k = key
    · simp [GoMap.find, hk]
    · simp [GoMap.find, hk, ih]

theorem find_eq_none {β : Type} (m : GoMap β) (key : String) :
    GoMap.find m key = none ↔ key ∉ m.map Prod.fst := by
  induction m with
  | nil => simp [GoMap.find]
  | cons e rest ih =>
    obtain ⟨k, x⟩ := e
    by_cases hk : k = key
    · simp [GoMap.find, hk]
    · have hk2 : ¬ key = k := fun e => hk e.symm
      simp [GoMap.find, hk, hk2, ih]

theorem mem_of_find {β : Type} (m : GoMap β) (key : String) (v : β)
    (h : GoMap.find m key = some v) : (key, v) ∈ m := by
  induction m with
  | nil => simp [GoMap.find] at h
  | cons e rest ih =>
    obtain ⟨k, x⟩ := e
    by_cases hk : k = key
    · simp [GoMap.find, hk] at h
      simp [hk, h]
    · simp only [GoMap.find, hk, if_false] at h
      exact List.mem_cons_of_mem _ (ih h)

/-- Without a `value` sub-key the inner loop leaves the variable as it is. -/
theorem parseDeploymentVar_no_value (entry : GoMap Value) (v0 : PagesProjectDeploymentVar)
    (h : "value" ∉ entry.map Prod.fst) : parseDeploymentVar entry v0 = .ok v0 := by
  induction entry with
  | nil => rfl
  | cons e rest ih =>
    obtain ⟨k, x⟩ := e
    simp only [List.map_cons, List.mem_cons, not_or] at h
    have hk : k ≠ "value" := fun e => h.1 e.symm
    simp [parseDeploymentVar, hk, ih h.2]

/-- With distinct sub-keys and a string under `value`, the inner loop stores it. -/
theorem parseDeploymentVar_value (entry : GoMap Value) (v0 : PagesProjectDeploymentVar)
    (s : String) (hnd : (entry.map Prod.fst).Nodup)
    (h : GoMap.find entry "value" = some (.str s)) :
    parseDeploymentVar entry v0 = .ok { Value := s } := by
  induction entry generalizing v0 with
  | nil => simp [GoMap.find] at h
  | cons e rest ih =>
    obtain ⟨k, x⟩ := e
    simp only [List.map_cons, List.nodup_cons] at hnd
    by_cases hk : k = "value"
    · subst hk
      simp only [GoMap.find, if_true, Option.some.injEq] at h
      subst h
      simp only [parseDeploymentVar, if_true, Value.asString]
      exact parseDeploymentVar_no_value rest _ hnd.1
    · simp only [GoMap.find, hk, if_false] at h
      simp only [parseDeploymentVar, hk, if_false]
      exact ih v0 hnd.2 h

/-- The inner loop returns exactly when every value under `value` is a string. -/
theorem parseDeploymentVar_returns_iff (entry : GoMap Value) (v0 : PagesProjectDeploymentVar) :
    (∃ v, parseDeploymentVar entry v0 = .ok v) ↔
      ∀ x, ("value", x) ∈ entry → ∃ s, x = Value.str s := by
  induction entry generalizing v0 with
  | nil => simp [parseDeploymentVar]
  | cons e rest ih =>
    obtain ⟨k, x⟩ := e
    by_cases hk : k = "value"
    · subst hk
      cases x <;> simp [parseDeploymentVar, Value.asString, ih]
    · have hk2 : ¬ "value" = k := fun e => hk e.symm
      simp [parseDeploymentVar, hk, hk2, ih]

/-- Sub-keys other than `value` do not reach the inner loop. -/
theorem parseDeploymentVar_filter (entry : GoMap Value) (v0 : PagesProjectDeploymentVar) :
    parseDeploymentVar (entry.filter fun sub => sub.1 = "value") v0 =
      parseDeploymentVar entry v0 := by
  induction entry generalizing v0 with
  | nil => rfl
  | cons e rest ih =>
    obtain ⟨k, x⟩ := e
    by_cases hk : k = "value"
    · subst hk
      cases x <;> simp [parseDeploymentVar, Value.asString, ih]
    · simp [parseDeploymentVar, hk, ih]

/-- Sub-keys other than `value` do not reach the outer loop either. -/
theorem parseEnvironmentVariablesLoop_filter (m : GoMap (GoMap Value))
    (acc : GoMap PagesProjectDeploymentVar) :
    parseEnvironmentVariablesLoop
        (m.map fun e => (e.1, e.2.filter fun sub => sub.1 = "value")) acc =
      parseEnvironmentVariablesLoop m acc := by
  induction m generalizing acc with
  | nil => rfl
  | cons e rest ih =>
    obtain ⟨name, entry⟩ := e
    simp only [List.map_cons, parseEnvironmentVariablesLoop, parseDeploymentVar_filter]
    cases parseDeploymentVar entry {} with
    | error p => rfl
    | ok v => exact ih _

/-- The outer loop returns exactly when every value under a `value` sub-key is a
string. -/
theorem parseEnvironmentVariablesLoop_returns_iff (m : GoMap (GoMap Value))
    (acc : GoMap PagesProjectDeploymentVar) :
    (∃ production, parseEnvironmentVariablesLoop m acc = .ok production) ↔
      ∀ name entry x, (name, entry) ∈ m → ("value", x) ∈ entry → ∃ s, x = Value.str s := by
  induction m generalizing acc with
  | nil => simp [parseEnvironmentVariablesLoop]
  | cons e rest ih =>
    obtain ⟨name, entry⟩ := e
    simp only [parseEnvironmentVariablesLoop]
    constructor
    · intro h n en x hmem hx
      cases hv : parseDeploymentVar entry {} with
      | error p => simp [hv] at h
      | ok v =>
        simp only [hv] at h
        rcases List.mem_cons.mp hmem with heq | hrest
        · simp only [Prod.mk.injEq] at heq
          obtain ⟨-, rfl⟩ := heq
          exact (parseDeploymentVar_returns_iff en {}).1 ⟨v, hv⟩ x hx
        · exact (ih _).1 h n en x hrest hx
    · intro h
      obtain ⟨v, hv⟩ := (parseDeploymentVar_returns_iff entry {}).2
        (fun x hx => h name entry x (List.mem_cons_self _ _) hx)
      simp only [hv]
      exact (ih _).2 (fun n en x hmem hx => h n en x (List.mem_cons_of_mem _ hmem) hx)

/-- With distinct names not yet in the result, the outer loop appends one variable per
entry, in order. -/
theorem parseEnvironmentVariablesLoop_eq (g : GoMap Value → PagesProjectDeploymentVar)
    (m : GoMap (GoMap Value)) (acc : GoMap PagesProjectDeploymentVar)
    (hg : ∀ name entry, (name, entry) ∈ m → parseDeploymentVar entry {} = .ok (g entry))
    (hnd : (m.map Prod.fst).Nodup)
    (hdis : ∀ name, name ∈ m.map Prod.fst → name ∉ acc.map Prod.fst) :
    parseEnvironmentVariablesLoop m acc = .ok (acc ++ m.map fun e => (e.1, g e.2)) := by
  induction m generalizing acc with
  | nil => simp [parseEnvironmentVariablesLoop]
  | cons e rest ih =>
    obtain ⟨name, entry⟩ := e
    simp only [List.map_cons, List.nodup_cons] at hnd
    simp only [parseEnvironmentVariablesLoop, hg name entry (List.mem_cons_self _ _)]
    rw [store_of_not_mem acc name (g entry) (hdis name (by simp))]
    rw [ih (acc ++ [(name, g entry)])
      (fun n en hmem => hg n en (List.mem_cons_of_mem _ hmem)) hnd.2 ?_]
    · simp
    · intro n hn
      simp only [List.map_append, List.map_cons, List.map_nil, List.mem_append,
        List.mem_singleton, not_or]
      refine ⟨hdis n (by simp [hn]), ?_⟩
      intro e
      subst e
      exact hnd.1 hn

/-- C12, as stated, fails: on the map with the one variable `KEY` whose sub-key `value`
holds the integer 5, `parseEnvironmentVariables` returns no map; the type assertion
`subvalueValue.(string)` panics. -/
theorem parseEnvironmentVariables_panics_on_non_string_value :
    parseEnvironmentVariables (.mapMapIface [("KEY", [("value", .int 5)])]) =
      .error (.interfaceConversion "string") := rfl

/-- C12, amended: for every map of environment variables (distinct variable names,
distinct sub-keys in each entry, as in any Go map) whose `value` sub-keys hold strings,
`parseEnvironmentVariables` returns a map with exactly the variable names of its input,
in which the `Value` of each variable is the string under the sub-key `value` of its
entry, and the empty string when the entry has no such sub-key. Every other sub-key is
ignored: dropping them from every entry never changes the result. The function
returns a map exactly when every `value` sub-key holds a string; otherwise the type
assertion on it panics. -/
theorem parseEnvironmentVariables_names_and_values (m : GoMap (GoMap Value)) :
    ((m.map Prod.fst).Nodup →
      (∀ name entry, (name, entry) ∈ m → (entry.map Prod.fst).Nodup) →
      (∀ name entry x, (name, entry) ∈ m → ("value", x) ∈ entry → ∃ s, x = Value.str s) →
      ∃ production, parseEnvironmentVariables (.mapMapIface m) = .ok production ∧
        production.map Prod.fst = m.map Prod.fst ∧
        ∀ name entry, GoMap.find m name = some entry →
          ∃ v, GoMap.find production name = some v ∧
            (∀ s, GoMap.find entry "value" = some (.str s) → v.Value = s) ∧
            (GoMap.find entry "value" = none → v.Value = "")) ∧
    parseEnvironmentVariables
        (.mapMapIface (m.map fun e => (e.1, e.2.filter fun sub => sub.1 = "value"))) =
      parseEnvironmentVariables (.mapMapIface m) ∧
    ((∃ production, parseEnvironmentVariables (.mapMapIface m) = .ok production) ↔
      ∀ name entry x, (name, entry) ∈ m → ("value", x) ∈ entry → ∃ s, x = Value.str s) := by
  have hunfold : ∀ m2 : GoMap (GoMap Value),
      parseEnvironmentVariables (.mapMapIface m2) = parseEnvironmentVariablesLoop m2 [] :=
    fun _ => rfl
  refine ⟨?_, ?_, ?_⟩
  · intro hnd hsub hstr
    let g : GoMap Value → PagesProjectDeploymentVar := fun entry =>
      match parseDeploymentVar entry {} with
      | .ok v => v
      | .error _ => {}
    have hg : ∀ name entry, (name, entry) ∈ m → parseDeploymentVar entry {} = .ok (g entry) := by
      intro name entry hmem
      obtain ⟨v, hv⟩ := (parseDeploymentVar_returns_iff entry {}).2
        (fun x hx => hstr name entry x hmem hx)
      simp only [g, hv]
    have hloop := parseEnvironmentVariablesLoop_eq g m [] hg hnd (by simp)
    rw [List.nil_append] at hloop
    refine ⟨_, by rw [hunfold, hloop], ?_, ?_⟩
    · simp [List.map_map, Function.comp_def]
    · intro name entry hfind
      refine ⟨g entry, by rw [find_map_snd, hfind]; rfl, ?_, ?_⟩
      · intro s hs
        have hmem := mem_of_find m name entry hfind
        have h1 := parseDeploymentVar_value entry {} s (hsub name entry hmem) hs
        have h2 := hg name entry hmem
        rw [h1, Except.ok.injEq] at h2
        rw [← h2]
      · intro hnone
        have hmem := mem_of_find m name entry hfind
        have h1 := parseDeploymentVar_no_value entry {} ((find_eq_none entry "value").1 hnone)
        have h2 := hg name entry hmem
        rw [h1, Except.ok.injEq] at h2
        rw [← h2]
  · rw [hunfold, hunfold]
    exact parseEnvironmentVariablesLoop_filter m []
  · rw [hunfold]
    exact parseEnvironmentVariablesLoop_returns_iff m []

/-- The amended C12 at a concrete input: the variable `KEY` with sub-keys `value` and `type`, and
the variable `EMPTY` with the sub-key `type` only. -/
theorem parseEnvironmentVariables_names_and_values_witness :
    ∃ production,
      parseEnvironmentVariables (.mapMapIface
        [("KEY", [("value", .str "v"), ("type", .str "plain_text")]),
         ("EMPTY", [("type", .str "secret_text")])]) = .ok production ∧
      production.map Prod.fst = ["KEY", "EMPTY"] ∧
      (∃ v, GoMap.find production "KEY" = some v ∧ v.Value = "v") ∧
      (∃ v, GoMap.find production "EMPTY" = some v ∧ v.Value = "") := by
  have h := (parseEnvironmentVariables_names_and_values
    [("KEY", [("value", .str "v"), ("type", .str "plain_text")]),
     ("EMPTY", [("type", .str "secret_text")])]).1 (by decide)
    (by
      intro name entry hmem
      simp only [List.mem_cons, Prod.mk.injEq, List.mem_nil_iff, or_false] at hmem
      rcases hmem with ⟨-, rfl⟩ | ⟨-, rfl⟩ <;> decide)
    (by
      intro name entry x hmem hx
      simp only [List.mem_cons, Prod.mk.injEq, List.mem_nil_iff, or_false] at hmem
      rcases hmem with ⟨-, rfl⟩ | ⟨-, rfl⟩
      · simp only [List.mem_cons, Prod.mk.injEq, List.mem_nil_iff, or_false] at hx
        rcases hx with ⟨-, rfl⟩ | ⟨hne, -⟩
        · exact ⟨_, rfl⟩
        · exact absurd hne (by decide)
      · simp only [List.mem_cons, Prod.mk.injEq, List.mem_nil_iff, or_false] at hx
        exact absurd hx.1 (by decide))
  obtain ⟨production, hp, hnames, hvals⟩ := h
  obtain ⟨v1, hf1, hv1, -⟩ := hvals "KEY" _ rfl
  obtain ⟨v2, hf2, -, hv2⟩ := hvals "EMPTY" _ rfl
  exact ⟨production, hp, hnames, ⟨v1, hf1, hv1 "v" rfl⟩, ⟨v2, hf2, hv2 rfl⟩⟩

end Pages

end Cloudflare
